import Mathlib

/-!
Verification of the artemis opportunity-discovery engine.

This file shallowly embeds the Rust source of the three strategy crates
(`multi-strategy`, `multi-strategy-flash`, `aave-flash-liquidation`) and
settles the quantified properties stated about them.

Modelling conventions, applied uniformly:
* `U256` values are natural numbers; `saturating_mul` / `saturating_add` /
  `saturating_sub` become `satMul` / `satAdd` / Nat subtraction (Nat `-`
  is already truncated at zero, matching `U256::saturating_sub`).
  Plain `U256` multiplication in the source panics on overflow; where a
  claim's statement ranges over such code the relevant theorems carry
  explicit no-overflow side conditions, and concrete inputs are chosen
  below the overflow boundary so model and source agree exactly.
* Rust `f64` quantities (profit estimates, thresholds, multipliers) are
  modelled as rationals `ℚ`; `format_units(x, 18).parse::<f64>()` becomes
  the exact division `(x : ℚ) / 10^18`.  At every concrete input used in
  a theorem the computed comparisons are far from the rounding boundary.
* `ethers::Address` (20-byte identifier, equality by bytes) is modelled
  as `Nat`; `Address::zero()` is `0`.
* Rust `HashMap`s that the source only iterates or looks up are modelled
  as association lists; iteration order of a `HashMap` is unspecified in
  Rust, and no property proved below depends on the chosen order.
* `async` functions performing RPC calls are modelled as pure functions
  taking an explicit environment record whose fields are the possible
  call results (`Option`/`Except` valued, a `none`/`error` being a failed
  RPC call).
-/

set_option maxRecDepth 8000

namespace ArtemisVerification

/-- 20-byte account / contract identifier, equality by bytes. -/
abbrev Address := Nat

/-- Largest value representable by a 256-bit unsigned integer. -/
def U256max : Nat := 2 ^ 256 - 1

/-- `U256::saturating_mul`. -/
def satMul (a b : Nat) : Nat := min (a * b) U256max

/-- `U256::saturating_add`. -/
def satAdd (a b : Nat) : Nat := min (a + b) U256max

theorem satMul_of_le {a b : Nat} (h : a * b ≤ U256max) : satMul a b = a * b :=
  min_eq_left h

theorem satAdd_of_le {a b : Nat} (h : a + b ≤ U256max) : satAdd a b = a + b :=
  min_eq_left h

theorem satMul_le_max (a b : Nat) : satMul a b ≤ U256max := min_le_right _ _

/-! ## The `multi-strategy` crate (`crates/strategies/multi-strategy/src`) -/

namespace MS

/-- `types.rs` `PoolType`. -/
inductive PoolType where
  | uniswapV2
  | uniswapV3
  | sushiSwap
  | curve
deriving DecidableEq, Repr

/-- `types.rs` `PoolReserves` (the `last_updated : SystemTime` field carries
no information used by any embedded function and is omitted). -/
structure PoolReserves where
  token0 : Address
  token1 : Address
  reserve0 : Nat
  reserve1 : Nat
  pool_type : PoolType
deriving DecidableEq, Repr

/-- `strategy.rs` `calculate_v2_swap_output`: constant-product quote with
30 bps fee, saturating `U256` arithmetic and an explicit zero-denominator
guard.  The `token_in` argument is unused by the source body (direction is
taken from `zero_for_one`) and is kept for signature fidelity. -/
def calculate_v2_swap_output (pool : PoolReserves) (token_in : Address)
    (amount_in : Nat) (zero_for_one : Bool) : Nat × Address :=
  let rio : Nat × Nat × Address :=
    if zero_for_one then (pool.reserve0, pool.reserve1, pool.token1)
    else (pool.reserve1, pool.reserve0, pool.token0)
  let reserve_in := rio.1
  let reserve_out := rio.2.1
  let token_out := rio.2.2
  let amount_in_with_fee := satMul amount_in 997
  let numerator := satMul amount_in_with_fee reserve_out
  let denominator := satAdd (satMul reserve_in 1000) amount_in_with_fee
  if denominator = 0 then (0, token_out)
  else (numerator / denominator, token_out)

/-- `strategy.rs` `calculate_v3_swap_output`: the concentrated-liquidity
approximation — constant-product quote plus a 1% bonus. -/
def calculate_v3_swap_output (pool : PoolReserves) (token_in : Address)
    (amount_in : Nat) (zero_for_one : Bool) : Nat × Address :=
  let rio : Nat × Nat × Address :=
    if zero_for_one then (pool.reserve0, pool.reserve1, pool.token1)
    else (pool.reserve1, pool.reserve0, pool.token0)
  let reserve_in := rio.1
  let reserve_out := rio.2.1
  let token_out := rio.2.2
  let amount_in_with_fee := satMul amount_in 997
  let numerator := satMul amount_in_with_fee reserve_out
  let denominator := satAdd (satMul reserve_in 1000) amount_in_with_fee
  if denominator = 0 then (0, token_out)
  else (satMul (numerator / denominator) 101 / 100, token_out)

/-- `strategy.rs` `calculate_swap_output`: dispatch on the pool kind
(`Curve` quoting is unimplemented in the source and yields zero). -/
def calculate_swap_output (pool : PoolReserves) (token_in : Address)
    (amount_in : Nat) (zero_for_one : Bool) : Nat × Address :=
  match pool.pool_type with
  | .uniswapV2 | .sushiSwap =>
      calculate_v2_swap_output pool token_in amount_in zero_for_one
  | .uniswapV3 =>
      calculate_v3_swap_output pool token_in amount_in zero_for_one
  | .curve => (0, token_in)

end MS

/-! ### C3, C4, C10: properties of the constant-product quote -/

/-- Concrete pool exhibiting a zero quote: reserves (1000, 2). -/
def c3pool : MS.PoolReserves :=
  { token0 := 1, token1 := 2, reserve0 := 1000, reserve1 := 2,
    pool_type := .uniswapV2 }

/-- C3 counterexample: with reserves `rIn = 1000 > 0`, `rOut = 2 > 0` and
input amount `1 ≤ rIn`, the constant-product quote is `0`, so the claimed
lower bound `0 < quoteOut` fails. -/
theorem C3_counterexample :
    0 < c3pool.reserve0 ∧ 0 < c3pool.reserve1 ∧ 1 ≤ c3pool.reserve0 ∧
    (MS.calculate_v2_swap_output c3pool c3pool.token0 1 true).1 = 0 := by
  decide

/-- Core inequality behind C3: the saturating constant-product quote is
below the output reserve whenever nothing saturates. -/
theorem v2_quote_core_lt (rin rout a : Nat) (hrin : 0 < rin)
    (hrout : 0 < rout) (hmul : a * 997 * rout ≤ U256max)
    (hden : rin * 1000 + a * 997 ≤ U256max) :
    (if satAdd (satMul rin 1000) (satMul a 997) = 0 then 0
     else satMul (satMul a 997) rout / satAdd (satMul rin 1000) (satMul a 997))
      < rout := by
  have h1 : satMul a 997 = a * 997 :=
    satMul_of_le (le_trans (Nat.le_add_left _ _) hden)
  have h3 : satMul rin 1000 = rin * 1000 :=
    satMul_of_le (le_trans (Nat.le_add_right _ _) hden)
  have h2 : satMul (satMul a 997) rout = a * 997 * rout := by
    rw [h1]; exact satMul_of_le hmul
  have h4 : satAdd (satMul rin 1000) (satMul a 997) = rin * 1000 + a * 997 := by
    rw [h1, h3]; exact satAdd_of_le hden
  rw [h2, h4]
  have hdpos : 0 < rin * 1000 + a * 997 := by positivity
  have hne : ¬(rin * 1000 + a * 997 = 0) := Nat.pos_iff_ne_zero.mp hdpos
  simp only [hne, if_false]
  rw [Nat.div_lt_iff_lt_mul hdpos]
  nlinarith

theorem calculate_v2_swap_output_fst (pool : MS.PoolReserves) (t : Address)
    (a : Nat) (d : Bool) :
    (MS.calculate_v2_swap_output pool t a d).1 =
      (if satAdd (satMul (if d then pool.reserve0 else pool.reserve1) 1000)
          (satMul a 997) = 0 then 0
       else satMul (satMul a 997) (if d then pool.reserve1 else pool.reserve0) /
         satAdd (satMul (if d then pool.reserve0 else pool.reserve1) 1000)
           (satMul a 997)) := by
  cases d <;> unfold MS.calculate_v2_swap_output <;> simp only [Bool.false_eq_true,
    if_false, if_true] <;> split <;> rfl

/-- C3 (amended): for reserves `rIn, rOut > 0`, input `amountIn ≤ rIn`, and
intermediate products below the `U256` saturation bound, the quote satisfies
`quoteOut < rOut`; the lower bound `0 < quoteOut` claimed by the spec does
not hold in general (the quote is `0` for small inputs, e.g. `amountIn = 0`). -/
theorem C3_quote_below_reserve_out (pool : MS.PoolReserves) (t : Address)
    (a : Nat) (d : Bool)
    (hrin : 0 < (if d then pool.reserve0 else pool.reserve1))
    (hrout : 0 < (if d then pool.reserve1 else pool.reserve0))
    (ha : a ≤ (if d then pool.reserve0 else pool.reserve1))
    (hmul : a * 997 * (if d then pool.reserve1 else pool.reserve0) ≤ U256max)
    (hden : (if d then pool.reserve0 else pool.reserve1) * 1000 + a * 997 ≤
      U256max) :
    (MS.calculate_v2_swap_output pool t a d).1 <
      (if d then pool.reserve1 else pool.reserve0) := by
  rw [calculate_v2_swap_output_fst]
  exact v2_quote_core_lt _ _ a hrin hrout hmul hden

/-- C3 witness: the amended bound evaluated at reserves (1000, 1000) and
input 500. -/
theorem C3_witness :
    (MS.calculate_v2_swap_output
        { token0 := 1, token1 := 2, reserve0 := 1000, reserve1 := 1000,
          pool_type := .uniswapV2 } 1 500 true).1 < 1000 :=
  C3_quote_below_reserve_out
    { token0 := 1, token1 := 2, reserve0 := 1000, reserve1 := 1000,
      pool_type := .uniswapV2 } 1 500 true
    (by decide) (by decide) (by decide)
    (by unfold U256max; decide) (by unfold U256max; decide)

theorem calculate_v2_swap_output_snd (pool : MS.PoolReserves) (t : Address)
    (a : Nat) (d : Bool) :
    (MS.calculate_v2_swap_output pool t a d).2 =
      (if d then pool.token1 else pool.token0) := by
  cases d <;> unfold MS.calculate_v2_swap_output <;> simp only [Bool.false_eq_true,
    if_false, if_true] <;> split <;> rfl

/-- Pool with a tiny reserve, used to exhibit the saturation divergence. -/
def c4pool : MS.PoolReserves :=
  { token0 := 1, token1 := 2, reserve0 := 1, reserve1 := 3,
    pool_type := .uniswapV2 }

/-- C4 counterexample: at `amountIn = 2^250` the intermediate products
saturate at `U256max`, so the code returns `1` while the claimed formula
`(amountIn · 997 · reserveOut) / (reserveIn · 1000 + amountIn · 997)`
evaluates to `2`. -/
theorem C4_counterexample :
    (MS.calculate_v2_swap_output c4pool 1 (2 ^ 250) true).1 = 1 ∧
    2 ^ 250 * 997 * c4pool.reserve1 /
      (c4pool.reserve0 * 1000 + 2 ^ 250 * 997) = 2 := by
  constructor
  · decide
  · decide

/-- C4 (amended): whenever the intermediate products stay below the `U256`
saturation bound, the constant-product quote equals
`(amountIn · 997 · reserveOut) / (reserveIn · 1000 + amountIn · 997)` with
integer floor division, reserves selected by the swap direction; at inputs
whose intermediates exceed `U256max` the code returns the saturated
quotient instead. -/
theorem C4_v2_quote_formula (pool : MS.PoolReserves) (t : Address)
    (a : Nat) (d : Bool)
    (hmul : a * 997 * (if d then pool.reserve1 else pool.reserve0) ≤ U256max)
    (hden : (if d then pool.reserve0 else pool.reserve1) * 1000 + a * 997 ≤
      U256max) :
    (MS.calculate_v2_swap_output pool t a d).1 =
      a * 997 * (if d then pool.reserve1 else pool.reserve0) /
        ((if d then pool.reserve0 else pool.reserve1) * 1000 + a * 997) := by
  rw [calculate_v2_swap_output_fst]
  have h1 : satMul a 997 = a * 997 :=
    satMul_of_le (le_trans (Nat.le_add_left _ _) hden)
  have h3 : satMul (if d then pool.reserve0 else pool.reserve1) 1000 =
      (if d then pool.reserve0 else pool.reserve1) * 1000 :=
    satMul_of_le (le_trans (Nat.le_add_right _ _) hden)
  have h2 : satMul (satMul a 997) (if d then pool.reserve1 else pool.reserve0) =
      a * 997 * (if d then pool.reserve1 else pool.reserve0) := by
    rw [h1]; exact satMul_of_le hmul
  have h4 : satAdd (satMul (if d then pool.reserve0 else pool.reserve1) 1000)
      (satMul a 997) = (if d then pool.reserve0 else pool.reserve1) * 1000 +
      a * 997 := by
    rw [h1, h3]; exact satAdd_of_le hden
  rw [h2, h4]
  rcases Nat.eq_zero_or_pos
      ((if d = true then pool.reserve0 else pool.reserve1) * 1000 + a * 997)
    with hz | hp
  · rw [if_pos hz, hz, Nat.div_zero]
  · rw [if_neg (Nat.pos_iff_ne_zero.mp hp)]

/-- C4 witness: the formula evaluated at reserves (1000, 2000), input 50. -/
theorem C4_witness :
    (MS.calculate_v2_swap_output
        { token0 := 1, token1 := 2, reserve0 := 1000, reserve1 := 2000,
          pool_type := .uniswapV2 } 1 50 true).1 =
      50 * 997 * 2000 / (1000 * 1000 + 50 * 997) :=
  C4_v2_quote_formula
    { token0 := 1, token1 := 2, reserve0 := 1000, reserve1 := 2000,
      pool_type := .uniswapV2 } 1 50 true
    (by unfold U256max; decide) (by unfold U256max; decide)

/-- C10: `calculate_v2_swap_output` is total — every multiplication and
addition saturates, the result never exceeds `U256max`, the output token is
always the one selected by the swap direction, and a zero denominator
yields output amount `0` rather than a division by zero. -/
theorem C10_v2_swap_total (pool : MS.PoolReserves) (t : Address)
    (a : Nat) (d : Bool) :
    (MS.calculate_v2_swap_output pool t a d).2 =
      (if d then pool.token1 else pool.token0) ∧
    (MS.calculate_v2_swap_output pool t a d).1 ≤ U256max ∧
    (satAdd (satMul (if d then pool.reserve0 else pool.reserve1) 1000)
        (satMul a 997) = 0 →
      (MS.calculate_v2_swap_output pool t a d).1 = 0) := by
  refine ⟨calculate_v2_swap_output_snd pool t a d, ?_, ?_⟩
  · rw [calculate_v2_swap_output_fst]
    rcases Nat.eq_zero_or_pos (satAdd (satMul
        (if d = true then pool.reserve0 else pool.reserve1) 1000) (satMul a 997))
      with hz | hp
    · rw [if_pos hz]; exact Nat.zero_le _
    · rw [if_neg (Nat.pos_iff_ne_zero.mp hp)]
      exact le_trans (Nat.div_le_self _ _) (satMul_le_max _ _)
  · intro hz
    rw [calculate_v2_swap_output_fst, if_pos hz]

/-- C10 witness: at a pool with zero input reserve and zero input amount the
denominator is zero and the quote degrades to `(0, token1)`. -/
theorem C10_witness :
    (MS.calculate_v2_swap_output
        { token0 := 7, token1 := 8, reserve0 := 0, reserve1 := 5,
          pool_type := .uniswapV2 } 7 0 true).1 = 0 ∧
    (MS.calculate_v2_swap_output
        { token0 := 7, token1 := 8, reserve0 := 0, reserve1 := 5,
          pool_type := .uniswapV2 } 7 0 true).2 = 8 :=
  ⟨(C10_v2_swap_total
      { token0 := 7, token1 := 8, reserve0 := 0, reserve1 := 5,
        pool_type := .uniswapV2 } 7 0 true).2.2 (by decide),
   (C10_v2_swap_total
      { token0 := 7, token1 := 8, reserve0 := 0, reserve1 := 5,
        pool_type := .uniswapV2 } 7 0 true).1⟩

/-! ## The `multi-strategy` crate: arbitrage-path BFS (`find_profitable_paths`) -/

namespace MS

/-- `strategy.rs` constant `MAX_PATH_LENGTH` (maximum number of swaps in a
path). -/
def MAX_PATH_LENGTH : Nat := 3

/-- Lookup in the `pool_reserves : HashMap<Address, PoolReserves>` cache,
modelled as an association list. -/
def lookup_reserves (rs : List (Address × PoolReserves)) (a : Address) :
    Option PoolReserves :=
  (rs.find? (fun pr => pr.1 == a)).map Prod.snd

/-- The adjacency lists of the token graph built at the top of
`find_profitable_paths`: each pool contributes the edge
`token0 → (pool, token1, pool_type)` and its mirror image, in pool
iteration order. -/
def graph_neighbors (rs : List (Address × PoolReserves)) (t : Address) :
    List (Address × Address × PoolType) :=
  match rs with
  | [] => []
  | pr :: rest =>
      ((if pr.2.token0 = t then [(pr.1, pr.2.token1, pr.2.pool_type)] else []) ++
       (if pr.2.token1 = t then [(pr.1, pr.2.token0, pr.2.pool_type)] else [])) ++
      graph_neighbors rest t

/-- One path step recorded by the BFS of `find_profitable_paths`:
`(pool, from_token, to_token, is_token0, pool_type)`. -/
abbrev PathStep := Address × Address × Address × Bool × PoolType

/-- The cycle enumeration at the heart of `find_profitable_paths`: the
queue-driven BFS of the source realised as depth-bounded recursion (the
`fuel` argument only bounds the recursion depth; path growth is stopped by
the source's own `path.len() >= MAX_PATH_LENGTH` guard, so any
`fuel ≥ MAX_PATH_LENGTH + 2` yields exactly the cycles the source finds;
traversal order differs from the queue order but the collected set does
not).  A popped state is a cycle when the current token equals the start
token and the path is nonempty; otherwise the path is extended along every
graph edge whose pool has not been visited. -/
def find_cycles (rs : List (Address × PoolReserves)) (start : Address) :
    Nat → Address → List PathStep → List Address → List (List PathStep)
  | 0, _, _, _ => []
  | fuel + 1, current, path, visited =>
      if current = start ∧ path ≠ [] then [path]
      else if MAX_PATH_LENGTH ≤ path.length then []
      else
        (graph_neighbors rs current).flatMap (fun e =>
          if visited.contains e.1 then []
          else
            find_cycles rs start fuel e.2.1
              (path ++ [(e.1, current, e.2.1,
                ((lookup_reserves rs e.1).map
                  (fun r => decide (r.token0 = current))).getD false, e.2.2)])
              (visited ++ [e.1]))

end MS

/-! ## The `multi-strategy-flash` crate (`crates/strategies/multi-strategy-flash/src`) -/

namespace FS

/-- `types.rs` `StrategyType`. -/
inductive StrategyType where
  | arbitrage
  | jitLiquidity
  | mevShareBackrun
deriving DecidableEq, Repr

/-- `types.rs` `DexType`. -/
inductive DexType where
  | uniswapV2
  | uniswapV3
  | curve
deriving DecidableEq, Repr

/-- `types.rs` `FlashLoanProvider`. -/
inductive FlashLoanProvider where
  | aave
  | balancer
  | uniswapV3
deriving DecidableEq, Repr

/-- `types.rs` `PoolReserves`. -/
structure PoolReserves where
  address : Address
  token0 : Address
  token1 : Address
  reserve0 : Nat
  reserve1 : Nat
  fee : Nat
  dex_type : DexType
deriving DecidableEq, Repr

/-- `types.rs` `Swap`. -/
structure Swap where
  pool_address : Address
  token_in : Address
  token_out : Address
  amount_in : Nat
  min_amount_out : Nat
  zero_for_one : Bool
  dex_type : DexType
  i : Option Int
  j : Option Int
  use_underlying : Option Bool
deriving DecidableEq, Repr

/-- `types.rs` `ArbitragePath`. -/
structure ArbitragePath where
  start_token : Address
  borrow_amount : Nat
  swaps : List Swap
  flash_loan_provider : FlashLoanProvider
deriving DecidableEq, Repr

/-- `types.rs` `JITLiquidityParams`. -/
structure JITLiquidityParams where
  pool : Address
  token0 : Address
  token1 : Address
  amount0 : Nat
  amount1 : Nat
  dex_type : DexType
  min_fee_expected : Nat
  flash_loan_provider : FlashLoanProvider
  fee : Option Nat
  tick_lower : Option Int
  tick_upper : Option Int
  token_id : Option Nat
deriving DecidableEq, Repr

/-- `types.rs` `BackrunParams` (`target_tx : H256` modelled as `Nat`,
calldata as a byte list). -/
structure BackrunParams where
  target_tx : Nat
  backrun_data : List Nat
  expected_profit : ℚ
deriving DecidableEq, Repr

/-- `types.rs` `Action`. -/
inductive Action where
  | executeArbitrage (path : ArbitragePath) (expected_profit : ℚ)
  | executeJitLiquidity (params : JITLiquidityParams) (expected_profit : ℚ)
  | executeBackrun (params : BackrunParams)
  | noAction
deriving DecidableEq, Repr

/-- `types.rs` `ArbitrageConfig`. -/
structure ArbitrageConfig where
  max_path_length : Nat
  min_profit_threshold : ℚ
  max_flash_loan_amount : Nat
  preferred_flash_loan_provider : FlashLoanProvider
deriving DecidableEq, Repr

/-- `types.rs` `Config`, restricted to the fields read by the arbitrage
pipeline embedded below (the JIT- and MEV-Share-specific sub-configurations
are not consulted by these functions). -/
structure Config where
  enabled_strategies : List StrategyType
  tokens : List Address
  min_profit_threshold : ℚ
  gas_price_multiplier : ℚ
  max_slippage : ℚ
  flash_loan_fee_multiplier : ℚ
  arbitrage : ArbitrageConfig
deriving DecidableEq, Repr

/-- `types.rs` `State`, restricted to the fields read by the arbitrage
pipeline (`pools` is the value list of the `HashMap<Address, PoolReserves>`,
keys being the `address` fields). -/
structure State where
  pools : List PoolReserves
  token_prices : List (Address × ℚ)
  gas_price : Nat
deriving DecidableEq, Repr

/-- `state.pools.get(&addr)`. -/
def lookup_pool (pools : List PoolReserves) (a : Address) : Option PoolReserves :=
  pools.find? (fun p => p.address == a)

/-- `state.token_prices.get(&token)`. -/
def lookup_price (prices : List (Address × ℚ)) (t : Address) : Option ℚ :=
  (prices.find? (fun q => q.1 == t)).map Prod.snd

/-- `strategy.rs` `estimate_gas_cost`: gas price parsed as gwei, times a
fixed 500000 gas units, divided by `1e9`, times the configured multiplier. -/
def estimate_gas_cost (cfg : Config) (st : State) : ℚ :=
  (st.gas_price : ℚ) / 10 ^ 9 * 500000 / 10 ^ 9 * cfg.gas_price_multiplier

/-- `strategy.rs` `calculate_swap_output` (the flash crate's quote, plain
panicking `U256` arithmetic in the source; exact on every input whose
intermediates stay below `2^256`, which holds at all inputs used in this
development).  The `UniswapV3` branch of the source converts through
decimal strings; it is modelled as the same fee-adjusted constant-product
quote, and is never evaluated by any theorem below. -/
def calculate_swap_output (pool : PoolReserves) (token_in : Address)
    (amount_in : Nat) (zero_for_one : Bool) : Nat × Address :=
  let token_out := if zero_for_one then pool.token1 else pool.token0
  match pool.dex_type with
  | .uniswapV2 =>
      let rio : Nat × Nat :=
        if zero_for_one then (pool.reserve0, pool.reserve1)
        else (pool.reserve1, pool.reserve0)
      let amount_in_with_fee := amount_in * 997
      let numerator := amount_in_with_fee * rio.2
      let denominator := rio.1 * 1000 + amount_in_with_fee
      (numerator / denominator, token_out)
  | .uniswapV3 =>
      let rio : Nat × Nat :=
        if zero_for_one then (pool.reserve0, pool.reserve1)
        else (pool.reserve1, pool.reserve0)
      let amount_in_with_fee :=
        (((amount_in : ℚ) * (1 - (pool.fee : ℚ) / 10000)).floor).toNat
      (amount_in_with_fee * rio.2 / (rio.1 + amount_in_with_fee), token_out)
  | .curve => (amount_in * 99 / 100, token_out)

/-- The consecutive hops of a raw BFS path, excluding the final hop back to
the start token (the source loop `for i in 1..path.len()` breaks at
`i == path.len() - 1`). -/
def path_hops (path : List (Address × Address)) :
    List ((Address × Address) × (Address × Address)) :=
  (path.zip path.tail).dropLast

/-- The swap simulation inside `simulate_arbitrage`: thread the running
amount through the hops; a missing pool aborts (the source returns profit
`0.0` there). -/
def run_hops (pools : List PoolReserves) :
    Nat → List ((Address × Address) × (Address × Address)) → Option Nat
  | amt, [] => some amt
  | amt, ((tin, _), (_, pa)) :: rest =>
      match lookup_pool pools pa with
      | none => none
      | some pool =>
          run_hops pools
            (calculate_swap_output pool tin amt (decide (tin = pool.token0))).1
            rest

/-- `strategy.rs` `simulate_arbitrage`: profit of running `amount` around
the cycle, in ETH, net of the flash-loan fee and the gas cost. -/
def simulate_arbitrage (cfg : Config) (st : State)
    (path : List (Address × Address)) (amount : Nat) : ℚ :=
  if path.length < 3 then 0
  else if path.head?.map Prod.fst ≠ path.getLast?.map Prod.fst then 0
  else
    match run_hops st.pools amount (path_hops path) with
    | none => 0
    | some current =>
        if current ≤ amount then 0
        else
          match lookup_price st.token_prices ((path.head?.map Prod.fst).getD 0) with
          | none => 0
          | some price =>
              let profit_in_eth := ((current - amount : Nat) : ℚ) / 10 ^ 18 * price
              let flash_loan_fee :=
                (amount : ℚ) / 10 ^ 18 * price * cfg.flash_loan_fee_multiplier
              profit_in_eth - flash_loan_fee - estimate_gas_cost cfg st

/-- The `for i in 1..=10` line search of `calculate_optimal_borrow_amount`:
try `initial · i`, stop at the cap, keep the strictly best profit. -/
def borrow_search (sim : Nat → ℚ) (maxAmt initial : Nat) :
    List Nat → Nat × ℚ → Nat × ℚ
  | [], acc => acc
  | i :: rest, acc =>
      let amount := initial * i
      if maxAmt < amount then acc
      else
        let profit := sim amount
        if acc.2 < profit then borrow_search sim maxAmt initial rest (amount, profit)
        else borrow_search sim maxAmt initial rest acc

/-- `strategy.rs` `calculate_optimal_borrow_amount`. -/
def calculate_optimal_borrow_amount (cfg : Config) (st : State)
    (path : List (Address × Address)) : Option Nat :=
  let maxAmt := cfg.arbitrage.max_flash_loan_amount
  let initial := maxAmt / 100
  let res := borrow_search (simulate_arbitrage cfg st path) maxAmt initial
    [1, 2, 3, 4, 5, 6, 7, 8, 9, 10] (initial, 0)
  if 0 < res.2 then some res.1 else none

/-- The `U256::from((1.0 - max_slippage) * 1000.0)` factor of
`create_arbitrage_path`. -/
def slip_factor (cfg : Config) : Nat :=
  (((1 - cfg.max_slippage) * 1000 : ℚ).floor).toNat

/-- The swap-construction loop of `create_arbitrage_path`: one `Swap` per
hop, threading the running amount, aborting when a pool is missing from the
reserves cache. -/
def build_swaps (st : State) (slip : Nat) :
    Nat → List ((Address × Address) × (Address × Address)) → Option (List Swap)
  | _, [] => some []
  | amt, ((tin, _), (tout, pa)) :: rest =>
      match lookup_pool st.pools pa with
      | none => none
      | some pool =>
          let out := (calculate_swap_output pool tin amt (decide (tin = pool.token0))).1
          match build_swaps st slip out rest with
          | none => none
          | some swaps =>
              some ({ pool_address := pa, token_in := tin, token_out := tout,
                      amount_in := amt, min_amount_out := out * slip / 1000,
                      zero_for_one := decide (tin = pool.token0),
                      dex_type := pool.dex_type, i := none, j := none,
                      use_underlying := none } :: swaps)

/-- `strategy.rs` `create_arbitrage_path`: reject non-cycles and paths
shorter than 3 entries, pick the borrow amount, build the swaps (the final
hop back to the start token is skipped by the source's `break`), and keep
the path only when the last recorded swap out-value exceeds the borrow. -/
def create_arbitrage_path (cfg : Config) (st : State)
    (path : List (Address × Address)) : Option ArbitragePath :=
  if path.length < 3 then none
  else if path.head?.map Prod.fst ≠ path.getLast?.map Prod.fst then none
  else
    match calculate_optimal_borrow_amount cfg st path with
    | none => none
    | some borrow =>
        match build_swaps st (slip_factor cfg) borrow (path_hops path) with
        | none => none
        | some swaps =>
            match swaps.getLast? with
            | none => none
            | some last_swap =>
                if last_swap.min_amount_out ≤ borrow then none
                else some { start_token := (path.head?.map Prod.fst).getD 0,
                            borrow_amount := borrow, swaps := swaps,
                            flash_loan_provider :=
                              cfg.arbitrage.preferred_flash_loan_provider }

/-- The adjacency lists of `find_profitable_paths`' token graph: each pool
contributes `token0 → (token1, address)` and its mirror image, in pool
iteration order. -/
def graph_neighbors (pools : List PoolReserves) (t : Address) :
    List (Address × Address) :=
  match pools with
  | [] => []
  | p :: rest =>
      ((if p.token0 = t then [(p.token1, p.address)] else []) ++
       (if p.token1 = t then [(p.token0, p.address)] else [])) ++
      graph_neighbors rest t

/-- The cycle enumeration of the flash crate's `find_profitable_paths`:
BFS over paths of `(token, pool)` entries starting from
`[(start_token, 0)]`, realised as depth-bounded recursion (see
`MS.find_cycles` for the fuel convention; here the source's guard is
`path.len() >= max_path_length` where the length counts tokens, the start
token included).  A popped path is a cycle when it has more than one entry
and its last token equals the start token; expansion skips every pool
already present in the path (zero pool entries are never skipped). -/
def find_cycles (pools : List PoolReserves) (maxLen : Nat) (start : Address) :
    Nat → List (Address × Address) → List (List (Address × Address))
  | 0, _ => []
  | fuel + 1, path =>
      if 1 < path.length ∧ (path.getLast?.map Prod.fst).getD start = start
      then [path]
      else if maxLen ≤ path.length then []
      else
        (graph_neighbors pools ((path.getLast?.map Prod.fst).getD start)).flatMap
          (fun np =>
            if path.any (fun tp => tp.2 == np.2 && tp.2 != 0) then []
            else find_cycles pools maxLen start fuel (path ++ [np]))

/-- `strategy.rs` `find_profitable_paths` (flash crate): needs at least two
pools, enumerates cycles from the start token, converts each through
`create_arbitrage_path`. -/
def find_profitable_paths (cfg : Config) (st : State) (start_token : Address) :
    Option (List ArbitragePath) :=
  if st.pools.length < 2 then none
  else
    let cycles := find_cycles st.pools cfg.arbitrage.max_path_length start_token
      (cfg.arbitrage.max_path_length + 1) [(start_token, 0)]
    let paths := cycles.filterMap (create_arbitrage_path cfg st)
    if paths.isEmpty then none else some paths

/-- `strategy.rs` `estimate_arbitrage_profit`. -/
def estimate_arbitrage_profit (cfg : Config) (st : State)
    (path : ArbitragePath) : Option ℚ :=
  match path.swaps.getLast? with
  | none => none
  | some final_swap =>
      if final_swap.min_amount_out ≤ path.borrow_amount then none
      else
        match lookup_price st.token_prices path.start_token with
        | none => none
        | some price =>
            let profit_in_eth :=
              ((final_swap.min_amount_out - path.borrow_amount : Nat) : ℚ) /
                10 ^ 18 * price
            let flash_loan_fee :=
              (path.borrow_amount : ℚ) / 10 ^ 18 * price *
                cfg.flash_loan_fee_multiplier
            let total := profit_in_eth - flash_loan_fee - estimate_gas_cost cfg st
            if 0 < total then some total else none

/-- The inner "most profitable so far" loop of
`find_arbitrage_opportunities`; a failing profit estimate aborts the whole
search (the source applies `?` inside an `Option`-returning function). -/
def select_paths (cfg : Config) (st : State) :
    List ArbitragePath → Option ArbitragePath × ℚ →
    Option (Option ArbitragePath × ℚ)
  | [], acc => some acc
  | p :: rest, acc =>
      match estimate_arbitrage_profit cfg st p with
      | none => none
      | some est =>
          select_paths cfg st rest
            (if acc.2 < est ∧ cfg.arbitrage.min_profit_threshold < est
             then (some p, est) else acc)

/-- The outer token loop of `find_arbitrage_opportunities`. -/
def select_tokens (cfg : Config) (st : State) :
    List Address → Option ArbitragePath × ℚ →
    Option (Option ArbitragePath × ℚ)
  | [], acc => some acc
  | t :: rest, acc =>
      match find_profitable_paths cfg st t with
      | none => select_tokens cfg st rest acc
      | some paths =>
          match select_paths cfg st paths acc with
          | none => none
          | some acc2 => select_tokens cfg st rest acc2

/-- `strategy.rs` `find_arbitrage_opportunities`: the single most profitable
path over all monitored tokens, as an `ExecuteArbitrage` action. -/
def find_arbitrage_opportunities (cfg : Config) (st : State) : Option Action :=
  match select_tokens cfg st cfg.tokens (none, 0) with
  | none => none
  | some (best, highest) => best.map (fun p => Action.executeArbitrage p highest)

end FS

/-! ### C5: depth behaviour of the two BFS cycle enumerations -/

/-- A triangle of flash-crate pools: 1-2 (pool 10), 2-3 (pool 11),
3-1 (pool 12). -/
def triPoolsF : List FS.PoolReserves :=
  [{ address := 10, token0 := 1, token1 := 2, reserve0 := 5, reserve1 := 5,
     fee := 30, dex_type := .uniswapV2 },
   { address := 11, token0 := 2, token1 := 3, reserve0 := 5, reserve1 := 5,
     fee := 30, dex_type := .uniswapV2 },
   { address := 12, token0 := 3, token1 := 1, reserve0 := 5, reserve1 := 5,
     fee := 30, dex_type := .uniswapV2 }]

/-- The same triangle as `multi-strategy` reserve entries. -/
def triReserves : List (Address × MS.PoolReserves) :=
  [(10, { token0 := 1, token1 := 2, reserve0 := 5, reserve1 := 5,
          pool_type := .uniswapV2 }),
   (11, { token0 := 2, token1 := 3, reserve0 := 5, reserve1 := 5,
          pool_type := .uniswapV2 }),
   (12, { token0 := 3, token1 := 1, reserve0 := 5, reserve1 := 5,
          pool_type := .uniswapV2 })]

/-- C5 counterexample: on a pool triangle with `maxPathLength = 3`, the
flash crate's BFS enumerates no cycle at all — its depth guard counts path
entries (tokens, start included), so the existing 3-swap-leg cycle is cut
off — while the sibling `multi-strategy` BFS on the same graph enumerates a
cycle of exactly 3 swap legs. -/
theorem C5_counterexample :
    FS.find_cycles triPoolsF 3 1 4 [(1, 0)] = [] ∧
    (MS.find_cycles triReserves 1 5 1 [] []).any
      (fun q => q.length = MS.MAX_PATH_LENGTH) = true := by
  constructor
  · decide
  · decide

theorem ms_find_cycles_length (rs : List (Address × MS.PoolReserves))
    (start : Address) :
    ∀ (fuel : Nat) (cur : Address) (path : List MS.PathStep)
      (visited : List Address) (q : List MS.PathStep),
      q ∈ MS.find_cycles rs start fuel cur path visited →
      q.length ≤ max path.length MS.MAX_PATH_LENGTH := by
  intro fuel
  induction fuel with
  | zero => intro cur path visited q h; simp [MS.find_cycles] at h
  | succ n ih =>
      intro cur path visited q h
      rw [MS.find_cycles] at h
      split at h
      · simp only [List.mem_singleton] at h
        subst h
        exact le_max_left _ _
      · split at h
        · simp at h
        · rename_i hlen
          rcases List.mem_flatMap.mp h with ⟨e, _, hq⟩
          by_cases hc : (visited.contains e.1 : Bool)
          · rw [if_pos hc] at hq; simp at hq
          · rw [if_neg hc] at hq
            have hb := ih _ _ _ _ hq
            rw [List.length_append] at hb
            have h1 : path.length + 1 ≤ MS.MAX_PATH_LENGTH := by
              simp only [not_le] at hlen; omega
            rw [List.length_singleton] at hb
            rw [max_eq_right h1] at hb
            exact le_trans hb (le_max_right _ _)

theorem fs_find_cycles_length (pools : List FS.PoolReserves) (maxLen : Nat)
    (start : Address) :
    ∀ (fuel : Nat) (path : List (Address × Address))
      (q : List (Address × Address)),
      q ∈ FS.find_cycles pools maxLen start fuel path →
      q.length ≤ max path.length maxLen := by
  intro fuel
  induction fuel with
  | zero => intro path q h; simp [FS.find_cycles] at h
  | succ n ih =>
      intro path q h
      rw [FS.find_cycles] at h
      split at h
      · simp only [List.mem_singleton] at h
        subst h
        exact le_max_left _ _
      · split at h
        · simp at h
        · rename_i hlen
          rcases List.mem_flatMap.mp h with ⟨np, _, hq⟩
          by_cases hc : (path.any (fun tp => tp.2 == np.2 && tp.2 != 0) : Bool)
          · rw [if_pos hc] at hq; simp at hq
          · rw [if_neg hc] at hq
            have hb := ih _ _ hq
            rw [List.length_append, List.length_singleton] at hb
            have h1 : path.length + 1 ≤ maxLen := by
              simp only [not_le] at hlen; omega
            rw [max_eq_right h1] at hb
            exact le_trans hb (le_max_right _ _)

/-- C5 (amended): in `multi-strategy` the BFS depth guard counts swap legs,
so cycles of exactly `MAX_PATH_LENGTH` (3) legs are enumerated (witnessed on
the triangle) and no path of `MAX_PATH_LENGTH + 1` legs ever is; in
`multi-strategy-flash` the guard counts path entries including the start
token, so every enumerated cycle has at most `max_path_length - 1` swap
legs and a cycle of exactly `max_path_length` legs is never enumerated. -/
theorem C5_bfs_depth_bounds :
    (∀ (rs : List (Address × MS.PoolReserves)) (start : Address) (fuel : Nat)
       (q : List MS.PathStep), q ∈ MS.find_cycles rs start fuel start [] [] →
       q.length ≤ MS.MAX_PATH_LENGTH) ∧
    ((MS.find_cycles triReserves 1 5 1 [] []).any
       (fun q => q.length = MS.MAX_PATH_LENGTH) = true) ∧
    (∀ (pools : List FS.PoolReserves) (maxLen : Nat) (start : Address)
       (fuel : Nat) (q : List (Address × Address)), 1 ≤ maxLen →
       q ∈ FS.find_cycles pools maxLen start fuel [(start, 0)] →
       q.length - 1 ≤ maxLen - 1) := by
  refine ⟨?_, by decide, ?_⟩
  · intro rs start fuel q h
    have := ms_find_cycles_length rs start fuel start [] [] q h
    simpa using this
  · intro pools maxLen start fuel q hmax h
    have := fs_find_cycles_length pools maxLen start fuel [(start, 0)] q h
    rw [List.length_singleton, max_eq_right hmax] at this
    omega

/-- C5 witness: the bounds applied to the concrete triangle enumerations. -/
theorem C5_witness :
    ([((10 : Address), (1 : Address), (2 : Address), true, MS.PoolType.uniswapV2),
      (11, 2, 3, true, .uniswapV2), (12, 3, 1, true, .uniswapV2)] :
        List MS.PathStep).length ≤ MS.MAX_PATH_LENGTH ∧
    ([((1 : Address), (0 : Address)), (2, 11), (1, 12)]).length - 1 ≤ 3 - 1 :=
  ⟨C5_bfs_depth_bounds.1 triReserves 1 5 _ (by decide),
   C5_bfs_depth_bounds.2.2
     [{ address := 11, token0 := 1, token1 := 2, reserve0 := 10,
        reserve1 := 1000000, fee := 30, dex_type := .uniswapV2 },
      { address := 12, token0 := 1, token1 := 2, reserve0 := 10,
        reserve1 := 1000000, fee := 30, dex_type := .uniswapV2 }]
     3 1 4 _ (by decide) (by decide)⟩

/-! ### C2: shape of the arbitrage paths the flash crate emits -/

/-- The legs chain from `t`: the first leg's `token_in` is `t` and each
later leg's `token_in` is the previous leg's `token_out`. -/
def chain_ok : Address → List FS.Swap → Bool
  | _, [] => true
  | t, s :: rest => (s.token_in == t) && chain_ok s.token_out rest

/-- A hop list is linked from `t`: each hop starts at the token the
previous hop ended on. -/
def linked : Address → List ((Address × Address) × (Address × Address)) → Prop
  | _, [] => True
  | t, hop :: rest => hop.1.1 = t ∧ linked hop.2.1 rest

theorem zip_linked :
    ∀ (q : List (Address × Address)) (x : Address × Address),
      linked x.1 ((x :: q).zip q)
  | [], _ => trivial
  | y :: q, x => by
      rw [List.zip_cons_cons]
      exact ⟨rfl, zip_linked q y⟩

theorem linked_dropLast :
    ∀ (l : List ((Address × Address) × (Address × Address))) (t : Address),
      linked t l → linked t l.dropLast
  | [], _, _ => trivial
  | [_], _, _ => trivial
  | a :: b :: l, t, h => by
      rw [List.dropLast_cons₂]
      exact ⟨h.1, linked_dropLast (b :: l) _ h.2⟩

theorem zip_tail_snd_map :
    ∀ (q : List (Address × Address)), (q.zip q.tail).map Prod.snd = q.tail
  | [] => rfl
  | [_] => rfl
  | x :: y :: q => by
      rw [List.tail_cons, List.zip_cons_cons, List.map_cons]
      have := zip_tail_snd_map (y :: q)
      rw [List.tail_cons] at this
      rw [this]

theorem map_dropLast {α β : Type} (f : α → β) :
    ∀ (l : List α), l.dropLast.map f = (l.map f).dropLast
  | [] => rfl
  | [_] => rfl
  | a :: b :: l => by
      rw [List.dropLast_cons₂, List.map_cons, List.map_cons, List.map_cons,
        List.dropLast_cons₂, map_dropLast f (b :: l), List.map_cons]

theorem build_swaps_chain (st : FS.State) (slip : Nat) :
    ∀ (hops : List ((Address × Address) × (Address × Address))) (amt : Nat)
      (t : Address) (l : List FS.Swap),
      linked t hops → FS.build_swaps st slip amt hops = some l →
      chain_ok t l = true
  | [], amt, t, l, _, h => by
      simp only [FS.build_swaps, Option.some_inj] at h
      subst h
      rfl
  | hop :: rest, amt, t, l, hl, h => by
      obtain ⟨⟨tin, tmid⟩, tout, pa⟩ := hop
      obtain ⟨rfl, hl2⟩ := hl
      simp only [FS.build_swaps] at h
      cases hp : FS.lookup_pool st.pools pa with
      | none => simp [hp] at h
      | some pool =>
          simp only [hp] at h
          cases hb : FS.build_swaps st slip
              (FS.calculate_swap_output pool tin amt
                (decide (tin = pool.token0))).1 rest with
          | none => simp [hb] at h
          | some swaps =>
              simp only [hb, Option.some_inj] at h
              subst h
              simp only [chain_ok, beq_self_eq_true, Bool.true_and]
              exact build_swaps_chain st slip rest _ tout swaps hl2 hb

theorem build_swaps_pools (st : FS.State) (slip : Nat) :
    ∀ (hops : List ((Address × Address) × (Address × Address))) (amt : Nat)
      (l : List FS.Swap),
      FS.build_swaps st slip amt hops = some l →
      l.map FS.Swap.pool_address = hops.map (fun hop => hop.2.2)
  | [], amt, l, h => by
      simp only [FS.build_swaps, Option.some_inj] at h
      subst h
      rfl
  | hop :: rest, amt, l, h => by
      obtain ⟨⟨tin, tmid⟩, tout, pa⟩ := hop
      simp only [FS.build_swaps] at h
      cases hp : FS.lookup_pool st.pools pa with
      | none => simp [hp] at h
      | some pool =>
          simp only [hp] at h
          cases hb : FS.build_swaps st slip
              (FS.calculate_swap_output pool tin amt
                (decide (tin = pool.token0))).1 rest with
          | none => simp [hb] at h
          | some swaps =>
              simp only [hb, Option.some_inj] at h
              subst h
              simp only [List.map_cons]
              rw [build_swaps_pools st slip rest _ swaps hb]

/-- BFS-path invariant for the flash crate: the path starts with the
`(start_token, 0)` sentinel, every later entry carries the address of a
pool in the reserves cache, and those pool addresses are pairwise
distinct. -/
def raw_ok (pools : List FS.PoolReserves) (start : Address)
    (q : List (Address × Address)) : Prop :=
  ∃ qt, q = (start, 0) :: qt ∧ (∀ e ∈ qt, ∃ p ∈ pools, e.2 = p.address) ∧
    (qt.map Prod.snd).Nodup

theorem mem_fs_graph_neighbors :
    ∀ (pools : List FS.PoolReserves) (t : Address) (np : Address × Address),
      np ∈ FS.graph_neighbors pools t → ∃ p ∈ pools, np.2 = p.address
  | [], t, np, h => by simp [FS.graph_neighbors] at h
  | p :: rest, t, np, h => by
      rw [FS.graph_neighbors] at h
      rcases List.mem_append.mp h with h1 | h2
      · rcases List.mem_append.mp h1 with h3 | h4
        · refine ⟨p, List.mem_cons_self p rest, ?_⟩
          rcases Decidable.em (p.token0 = t) with he | he
          · rw [if_pos he] at h3
            simp only [List.mem_singleton] at h3
            subst h3; rfl
          · rw [if_neg he] at h3; simp at h3
        · refine ⟨p, List.mem_cons_self p rest, ?_⟩
          rcases Decidable.em (p.token1 = t) with he | he
          · rw [if_pos he] at h4
            simp only [List.mem_singleton] at h4
            subst h4; rfl
          · rw [if_neg he] at h4; simp at h4
      · obtain ⟨pl, hpl, he⟩ := mem_fs_graph_neighbors rest t np h2
        exact ⟨pl, List.mem_cons_of_mem p hpl, he⟩

theorem fs_find_cycles_ok (pools : List FS.PoolReserves) (maxLen : Nat)
    (start : Address) (haddr : ∀ p ∈ pools, p.address ≠ 0) :
    ∀ (fuel : Nat) (path : List (Address × Address))
      (q : List (Address × Address)), raw_ok pools start path →
      q ∈ FS.find_cycles pools maxLen start fuel path →
      raw_ok pools start q := by
  intro fuel
  induction fuel with
  | zero => intro path q _ h; simp [FS.find_cycles] at h
  | succ n ih =>
      intro path q hok h
      rw [FS.find_cycles] at h
      split at h
      · simp only [List.mem_singleton] at h
        subst h
        exact hok
      · split at h
        · simp at h
        · rcases List.mem_flatMap.mp h with ⟨np, hnp, hq⟩
          by_cases hc : (path.any (fun tp => tp.2 == np.2 && tp.2 != 0) : Bool)
          · rw [if_pos hc] at hq; simp at hq
          · rw [if_neg hc] at hq
            refine ih (path ++ [np]) q ?_ hq
            obtain ⟨qt, rfl, hmem, hnd⟩ := hok
            obtain ⟨pl, hpl, hnpa⟩ := mem_fs_graph_neighbors pools _ np hnp
            refine ⟨qt ++ [np], by simp, ?_, ?_⟩
            · intro e he
              rcases List.mem_append.mp he with h1 | h2
              · exact hmem e h1
              · simp only [List.mem_singleton] at h2
                subst h2
                exact ⟨pl, hpl, hnpa⟩
            · rw [List.map_append]
              rw [List.nodup_append]
              refine ⟨hnd, List.nodup_singleton _, ?_⟩
              intro x hx hx2
              simp only [List.map_cons, List.map_nil, List.mem_singleton] at hx2
              subst hx2
              rcases List.mem_map.mp hx with ⟨e, he, heq⟩
              have hfalse := List.any_eq_false.mp (Bool.not_eq_true _ ▸ hc)
              have hthis := hfalse e (List.mem_cons_of_mem _ he)
              obtain ⟨ple, hple, hpe⟩ := hmem e he
              have hne : e.2 ≠ 0 := by rw [hpe]; exact haddr ple hple
              simp only [Bool.and_eq_true, beq_iff_eq, bne_iff_ne] at hthis
              exact hthis ⟨heq, hne⟩

theorem create_arbitrage_path_props (cfg : FS.Config) (st : FS.State)
    (q : List (Address × Address)) (P : FS.ArbitragePath)
    (hok : raw_ok st.pools (((q.head?.map Prod.fst).getD 0)) q)
    (h : FS.create_arbitrage_path cfg st q = some P) :
    chain_ok P.start_token P.swaps = true ∧
    (P.swaps.map FS.Swap.pool_address).Nodup ∧ P.swaps ≠ [] := by
  simp only [FS.create_arbitrage_path] at h
  split at h
  · simp at h
  · split at h
    · simp at h
    · cases hbr : FS.calculate_optimal_borrow_amount cfg st q with
      | none => simp [hbr] at h
      | some borrow =>
        simp only [hbr] at h
        cases hbs : FS.build_swaps st (FS.slip_factor cfg) borrow
            (FS.path_hops q) with
        | none => simp [hbs] at h
        | some swaps =>
          simp only [hbs] at h
          cases hlast : swaps.getLast? with
          | none => simp [hlast] at h
          | some last_swap =>
            simp only [hlast] at h
            split at h
            · simp at h
            · simp only [Option.some_inj] at h
              subst h
              obtain ⟨qt, hq, hmem, hnd⟩ := hok
              refine ⟨?_, ?_, ?_⟩
              · -- the legs chain from the start token
                show chain_ok ((q.head?.map Prod.fst).getD 0) swaps = true
                have hlink : linked ((q.head?.map Prod.fst).getD 0)
                    (FS.path_hops q) := by
                  unfold FS.path_hops
                  refine linked_dropLast _ _ ?_
                  rw [hq, List.tail_cons]
                  exact zip_linked qt _
                exact build_swaps_chain st (FS.slip_factor cfg)
                  (FS.path_hops q) borrow _ swaps hlink hbs
              · -- no pool repeated
                show (swaps.map FS.Swap.pool_address).Nodup
                have hpools := build_swaps_pools st (FS.slip_factor cfg)
                  (FS.path_hops q) borrow swaps hbs
                have hhops : (FS.path_hops q).map (fun hop => hop.2.2) =
                    (qt.map Prod.snd).dropLast := by
                  unfold FS.path_hops
                  have h1 : (q.zip q.tail).map (fun hop => hop.2.2) =
                      ((q.zip q.tail).map Prod.snd).map Prod.snd := by
                    rw [List.map_map]; rfl
                  rw [map_dropLast, h1, zip_tail_snd_map, hq, List.tail_cons]
                rw [hpools, hhops]
                exact List.Sublist.nodup (List.dropLast_sublist _) hnd
              · -- at least one leg
                show swaps ≠ []
                intro hnil
                rw [hnil] at hlast
                simp at hlast

theorem select_paths_prop (cfg : FS.Config) (st : FS.State)
    (Q : FS.ArbitragePath → Prop) :
    ∀ (ps : List FS.ArbitragePath) (acc acc2 : Option FS.ArbitragePath × ℚ),
      (∀ x ∈ ps, Q x) → (∀ x, acc.1 = some x → Q x) →
      FS.select_paths cfg st ps acc = some acc2 →
      ∀ x, acc2.1 = some x → Q x
  | [], acc, acc2, _, hacc, h => by
      simp only [FS.select_paths, Option.some_inj] at h
      subst h
      exact hacc
  | p :: rest, acc, acc2, hps, hacc, h => by
      simp only [FS.select_paths] at h
      cases he : FS.estimate_arbitrage_profit cfg st p with
      | none => simp [he] at h
      | some est =>
          simp only [he] at h
          refine select_paths_prop cfg st Q rest _ acc2
            (fun x hx => hps x (List.mem_cons_of_mem p hx)) ?_ h
          intro x hx
          split at hx
          · simp only [Option.some_inj] at hx
            subst hx
            exact hps p (List.mem_cons_self p rest)
          · exact hacc x hx

theorem select_tokens_prop (cfg : FS.Config) (st : FS.State)
    (Q : FS.ArbitragePath → Prop)
    (hpp : ∀ (t : Address) (ps : List FS.ArbitragePath),
      FS.find_profitable_paths cfg st t = some ps → ∀ x ∈ ps, Q x) :
    ∀ (ts : List Address) (acc acc2 : Option FS.ArbitragePath × ℚ),
      (∀ x, acc.1 = some x → Q x) →
      FS.select_tokens cfg st ts acc = some acc2 →
      ∀ x, acc2.1 = some x → Q x
  | [], acc, acc2, hacc, h => by
      simp only [FS.select_tokens, Option.some_inj] at h
      subst h
      exact hacc
  | t :: rest, acc, acc2, hacc, h => by
      simp only [FS.select_tokens] at h
      cases hf : FS.find_profitable_paths cfg st t with
      | none =>
          simp only [hf] at h
          exact select_tokens_prop cfg st Q hpp rest acc acc2 hacc h
      | some ps =>
          simp only [hf] at h
          cases hs : FS.select_paths cfg st ps acc with
          | none => simp [hs] at h
          | some acc1 =>
              simp only [hs] at h
              exact select_tokens_prop cfg st Q hpp rest acc1 acc2
                (select_paths_prop cfg st Q ps acc acc1 (hpp t ps hf) hacc hs) h

/-- C2 (amended): every `ExecuteArbitrage` the flash crate's
`find_arbitrage_opportunities` emits carries legs that chain from the start
token (`leg[0].tokenIn = startToken` and `leg[i+1].tokenIn =
leg[i].tokenOut`), with no pool address appearing in two legs (given that
no cached pool has the zero address), and at least one leg; but the final
hop back to the start token is dropped by `create_arbitrage_path`, so the
last leg's `tokenOut` is not the start token and the legs do not close the
cycle. -/
theorem C2_emitted_path_shape (cfg : FS.Config) (st : FS.State)
    (p : FS.ArbitragePath) (ep : ℚ)
    (haddr : ∀ pl ∈ st.pools, pl.address ≠ 0)
    (h : FS.find_arbitrage_opportunities cfg st =
      some (FS.Action.executeArbitrage p ep)) :
    chain_ok p.start_token p.swaps = true ∧
    (p.swaps.map FS.Swap.pool_address).Nodup ∧ p.swaps ≠ [] := by
  have hQ : ∀ (t : Address) (ps : List FS.ArbitragePath),
      FS.find_profitable_paths cfg st t = some ps →
      ∀ x ∈ ps, chain_ok x.start_token x.swaps = true ∧
        (x.swaps.map FS.Swap.pool_address).Nodup ∧ x.swaps ≠ [] := by
    intro t ps hf x hx
    simp only [FS.find_profitable_paths] at hf
    split at hf
    · simp at hf
    · split at hf
      · simp at hf
      · simp only [Option.some_inj] at hf
        subst hf
        rcases List.mem_filterMap.mp hx with ⟨q, hqmem, hqc⟩
        have hok0 : raw_ok st.pools t [(t, 0)] :=
          ⟨[], rfl, by simp, List.nodup_nil⟩
        have hok := fs_find_cycles_ok st.pools cfg.arbitrage.max_path_length
          t haddr _ [(t, 0)] q hok0 hqmem
        have hstart : ((q.head?.map Prod.fst).getD 0) = t := by
          obtain ⟨qt, rfl, -, -⟩ := hok
          rfl
        exact create_arbitrage_path_props cfg st q x (hstart ▸ hok) hqc
  simp only [FS.find_arbitrage_opportunities] at h
  rcases hs : FS.select_tokens cfg st cfg.tokens (none, 0) with _ | acc2 <;>
    rw [hs] at h
  · simp at h
  · obtain ⟨best, highest⟩ := acc2
    rcases best with _ | pb
    · simp at h
    · simp only [Option.map_some, Option.some_inj] at h
      have hp : pb = p := by
        cases h
        rfl
      subst hp
      exact select_tokens_prop cfg st _ hQ cfg.tokens (none, 0) (pb, highest)
        (by intro x hx; simp at hx) hs pb rfl

/-- Flash-crate demonstration configuration: arbitrage only, thresholds and
fee/gas multipliers zero, `max_path_length` 3, flash-loan cap 100000. -/
def fsDemoCfg : FS.Config :=
  { enabled_strategies := [.arbitrage], tokens := [1],
    min_profit_threshold := 0, gas_price_multiplier := 1,
    max_slippage := 0, flash_loan_fee_multiplier := 0,
    arbitrage := { max_path_length := 3, min_profit_threshold := 0,
                   max_flash_loan_amount := 100,
                   preferred_flash_loan_provider := .aave } }

/-- Flash-crate demonstration state: two constant-product pools between
tokens 1 and 2 with skewed reserves, token 1 priced at 1. -/
def fsDemoState : FS.State :=
  { pools := [{ address := 11, token0 := 1, token1 := 2, reserve0 := 10,
                reserve1 := 1000000, fee := 30, dex_type := .uniswapV2 },
              { address := 12, token0 := 1, token1 := 2, reserve0 := 10,
                reserve1 := 1000000, fee := 30, dex_type := .uniswapV2 }],
    token_prices := [(1, 1)], gas_price := 0 }

/-- Does the carried path close its cycle? (`true` for non-arbitrage
actions.) -/
def last_leg_closes : FS.Action → Bool
  | .executeArbitrage p _ =>
      (match p.swaps.getLast? with
       | some s => s.token_out == p.start_token
       | none => false)
  | _ => true

/-- C2 counterexample: on `fsDemoCfg` / `fsDemoState` the strategy emits an
`ExecuteArbitrage` whose legs do not return to the start token — the last
(and only) leg's `tokenOut` is token 2 while the start token is 1. -/
theorem C2_counterexample :
    (FS.find_arbitrage_opportunities fsDemoCfg fsDemoState).map
      last_leg_closes = some false := by
  with_unfolding_all decide

/-- C2 witness: the amended shape facts applied to the concretely emitted
path. -/
theorem C2_witness :
    chain_ok 1 [{ pool_address := 11, token_in := 1, token_out := 2,
                  amount_in := 10, min_amount_out := 499248,
                  zero_for_one := true, dex_type := .uniswapV2, i := none,
                  j := none, use_underlying := none }] = true := by
  have h := C2_emitted_path_shape fsDemoCfg fsDemoState
    { start_token := 1, borrow_amount := 10,
      swaps := [{ pool_address := 11, token_in := 1, token_out := 2,
                  amount_in := 10, min_amount_out := 499248,
                  zero_for_one := true, dex_type := .uniswapV2, i := none,
                  j := none, use_underlying := none }],
      flash_loan_provider := .aave }
    (mkRat 249619 500000000000000000)
    (by decide) (by with_unfolding_all rfl)
  exact h.1

/-! ## The `aave-flash-liquidation` crate
(`crates/strategies/aave-flash-liquidation/src`) -/

namespace AV

/-- `types.rs` `LiquidationStrategyType`. -/
inductive LiquidationStrategyType where
  | flashLoanLiquidation
  | directLiquidation
  | mevProtectedLiquidation
deriving DecidableEq, Repr

/-- `types.rs` `FlashLoanProvider`. -/
inductive FlashLoanProvider where
  | aaveV3
  | balancer
  | uniswapV3
deriving DecidableEq, Repr

/-- `types.rs` `DexType`. -/
inductive DexType where
  | uniswapV2
  | uniswapV3
  | curve
  | balancer
deriving DecidableEq, Repr

/-- `types.rs` `LiquidationTarget` (`expected_profit : f64` as `ℚ`). -/
structure LiquidationTarget where
  user : Address
  collateral_asset : Address
  debt_asset : Address
  debt_to_cover : Nat
  health_factor : Nat
  liquidation_bonus : Nat
  expected_profit : ℚ
  gas_cost_estimate : Nat
  receive_a_token : Bool
deriving DecidableEq, Repr

/-- `types.rs` `SwapRoute`. -/
structure SwapRoute where
  token_in : Address
  token_out : Address
  amount_in : Nat
  min_amount_out : Nat
  dex_type : DexType
  pool_address : Address
  fee : Option Nat
deriving DecidableEq, Repr

/-- `types.rs` `FlashLoanParameters`. -/
structure FlashLoanParameters where
  asset : Address
  amount : Nat
  provider : FlashLoanProvider
  fee_rate : Nat
deriving DecidableEq, Repr

/-- `types.rs` `LiquidationPath`. -/
structure LiquidationPath where
  target : LiquidationTarget
  flash_loan : FlashLoanParameters
  swap_routes : List SwapRoute
  expected_profit_eth : ℚ
  max_gas_price : Nat
  use_flashbots : Bool
deriving DecidableEq, Repr

/-- `types.rs` `ProviderConfig`. -/
structure ProviderConfig where
  contract_address : Address
  fee_rate : Nat
  max_amount : Nat
  enabled : Bool
deriving DecidableEq, Repr

/-- `types.rs` `FlashLoanConfig`. -/
structure FlashLoanConfig where
  preferred_provider : FlashLoanProvider
  max_flash_loan_amount : Nat
  fee_multiplier : ℚ
  providers : List (FlashLoanProvider × ProviderConfig)
deriving DecidableEq, Repr

/-- Per-DEX router configuration.  `strategy.rs` reads
`self.config.dex_configs.get(&dex).router_address` although the `Config`
declaration in `types.rs` lacks the field; it is modelled here exactly as
the use sites consume it. -/
structure DexConfig where
  router_address : Address
deriving DecidableEq, Repr

/-- `types.rs` `Config` (plus the `dex_configs` map read by
`find_uniswap_v2_route` / `find_uniswap_v3_route`, see `DexConfig`). -/
structure Config where
  enabled_strategies : List LiquidationStrategyType
  liquidator_contract : Address
  aave_pool : Address
  aave_oracle : Address
  min_profit_threshold : ℚ
  max_gas_price : Nat
  gas_price_multiplier : ℚ
  max_slippage : ℚ
  health_factor_threshold : Nat
  max_liquidation_amount : Nat
  flashbots_enabled : Bool
  mev_protection_enabled : Bool
  circuit_breaker_enabled : Bool
  monitored_assets : List Address
  supported_dexes : List DexType
  flash_loan_config : FlashLoanConfig
  dex_configs : List (DexType × DexConfig)
deriving DecidableEq, Repr

/-- `types.rs` `State`, restricted to the fields the embedded functions
read. -/
structure State where
  gas_price : Nat
  circuit_breaker_triggered : Bool
  last_update_block : Nat
deriving DecidableEq, Repr

/-- `types.rs` `AaveUserData`. -/
structure AaveUserData where
  total_collateral_eth : Nat
  total_debt_eth : Nat
  available_borrows_eth : Nat
  current_liquidation_threshold : Nat
  ltv : Nat
  health_factor : Nat
deriving DecidableEq, Repr

/-- `types.rs` `Action`. -/
inductive Action where
  | executeLiquidation (path : LiquidationPath) (expected_profit : ℚ)
  | updatePrices (assets : List Address)
  | triggerCircuitBreaker (reason : String)
  | noAction
deriving DecidableEq, Repr

/-- On-chain read environment of the strategy and collector: the results
the Aave pool and oracle contracts return, `none` being a failed RPC
call. -/
structure ChainEnv where
  userAccountData : Address → Option AaveUserData
  configurationWord : Address → Option Nat
  assetPrice : Address → Option Nat

/-- `getUserAccountData`'s sixth tuple component
(`get_user_health_factor`). -/
def get_user_health_factor (env : ChainEnv) (user : Address) : Option Nat :=
  (env.userAccountData user).map AaveUserData.health_factor

/-- `strategy.rs` `is_user_liquidatable`: health factor below `10^18`,
`false` when the read fails. -/
def is_user_liquidatable (env : ChainEnv) (user : Address) : Bool :=
  match get_user_health_factor env user with
  | some hf => decide (hf < 10 ^ 18)
  | none => false

/-- `get_liquidation_bonus`: bits 16–31 of the pool configuration word. -/
def get_liquidation_bonus (env : ChainEnv) (asset : Address) : Option Nat :=
  (env.configurationWord asset).map (fun w => (w >>> 16) &&& 0xFFFF)

/-- `get_asset_price` against the oracle. -/
def get_asset_price (env : ChainEnv) (asset : Address) : Option Nat :=
  env.assetPrice asset

/-- `strategy.rs` `estimate_gas_cost`: gas price in gwei times 500000 gas
units over `1e9`, times the configured multiplier. -/
def estimate_gas_cost (cfg : Config) (st : State) : ℚ :=
  (st.gas_price : ℚ) / 10 ^ 9 * 500000 / 10 ^ 9 * cfg.gas_price_multiplier

/-- Rust's saturating `f64 → u64` cast (negative to `0`, above `2^64 - 1`
to the maximum), used for `U256::from((x * 1e18) as u64)`. -/
def f64_to_u64 (q : ℚ) : Nat := min q.floor.toNat (2 ^ 64 - 1)

/-- `get_flash_loan_fee_rate`: the provider's configured rate, default 9
bps. -/
def get_flash_loan_fee_rate (cfg : Config) (p : FlashLoanProvider) : Nat :=
  (((cfg.flash_loan_config.providers.find? (fun e => e.1 == p)).map
    (fun e => e.2.fee_rate)).getD 9)

/-- `strategy.rs` `calculate_expected_profit` (wei). -/
def calculate_expected_profit (env : ChainEnv) (cfg : Config) (st : State)
    (collateral_asset debt_asset : Address) (user : Address)
    (debt_to_cover : Nat) : Option Nat := do
  let liquidation_bonus ← get_liquidation_bonus env collateral_asset
  let collateral_price ← get_asset_price env collateral_asset
  let debt_price ← get_asset_price env debt_asset
  let max_liquidation_amount :=
    min debt_to_cover (debt_to_cover * 5000 / 10000)
  let collateral_amount :=
    max_liquidation_amount * debt_price / collateral_price *
      liquidation_bonus / 10000
  let profit_wei :=
    collateral_amount * collateral_price / 10 ^ 18 -
      max_liquidation_amount * debt_price / 10 ^ 18
  let gas_cost := f64_to_u64 (estimate_gas_cost cfg st * 10 ^ 18)
  if gas_cost < profit_wei then some (profit_wei - gas_cost) else none

/-- `calculate_flash_loan_fee` in ETH. -/
def calculate_flash_loan_fee (cfg : Config) (amount : Nat)
    (asset : Address) : ℚ :=
  ((amount * get_flash_loan_fee_rate cfg
      cfg.flash_loan_config.preferred_provider / 10000 : Nat) : ℚ) / 10 ^ 18

/-- `strategy.rs` `calculate_profit`: expected profit in ETH net of gas and
the flash-loan fee, `none` unless positive. -/
def calculate_profit (cfg : Config) (st : State) (env : ChainEnv)
    (target : LiquidationTarget) : Option ℚ := do
  let expected_profit_wei ← calculate_expected_profit env cfg st
    target.collateral_asset target.debt_asset target.user target.debt_to_cover
  let profit_eth := (expected_profit_wei : ℚ) / 10 ^ 18
  let gas_cost := estimate_gas_cost cfg st
  let flash_loan_fee :=
    calculate_flash_loan_fee cfg target.debt_to_cover target.debt_asset
  let net_profit := profit_eth - gas_cost - flash_loan_fee
  if 0 < net_profit then some net_profit else none

/-- `find_uniswap_v2_route`: fixed route through the configured V2 router
with a 5% haircut on the amount. -/
def find_uniswap_v2_route (cfg : Config) (token_in token_out : Address)
    (amount_in : Nat) : Option SwapRoute :=
  (cfg.dex_configs.find? (fun e => e.1 == DexType.uniswapV2)).map (fun e =>
    { token_in := token_in, token_out := token_out, amount_in := amount_in,
      min_amount_out := amount_in * 95 / 100, dex_type := .uniswapV2,
      pool_address := e.2.router_address, fee := none })

/-- `find_uniswap_v3_route`: fixed route through the configured V3 router
with a 3% haircut and fee tier 3000. -/
def find_uniswap_v3_route (cfg : Config) (token_in token_out : Address)
    (amount_in : Nat) : Option SwapRoute :=
  (cfg.dex_configs.find? (fun e => e.1 == DexType.uniswapV3)).map (fun e =>
    { token_in := token_in, token_out := token_out, amount_in := amount_in,
      min_amount_out := amount_in * 97 / 100, dex_type := .uniswapV3,
      pool_address := e.2.router_address, fee := some 3000 })

/-- `find_best_route_for_dex` (`Curve` and `Balancer` route finding is
unimplemented in the source and yields `None`). -/
def find_best_route_for_dex (cfg : Config) (token_in token_out : Address)
    (amount_in : Nat) : DexType → Option SwapRoute
  | .uniswapV2 => find_uniswap_v2_route cfg token_in token_out amount_in
  | .uniswapV3 => find_uniswap_v3_route cfg token_in token_out amount_in
  | .curve => none
  | .balancer => none

/-- `calculate_optimal_swap_routes`: collect a route per supported DEX and
keep the single route with the highest `min_amount_out` (the source sorts
descending and takes the first element; a stable descending sort selects
the first maximum). -/
def calculate_optimal_swap_routes (cfg : Config)
    (collateral_asset debt_asset : Address) (liquidation_bonus : Nat) :
    Option (List SwapRoute) :=
  let routes := cfg.supported_dexes.filterMap
    (find_best_route_for_dex cfg collateral_asset debt_asset liquidation_bonus)
  match routes with
  | [] => none
  | r :: rest =>
      some [rest.foldl
        (fun best q => if best.min_amount_out < q.min_amount_out then q
          else best) r]

/-- `strategy.rs` `create_liquidation_path`. -/
def create_liquidation_path (cfg : Config) (env : ChainEnv)
    (target : LiquidationTarget) (expected_profit : ℚ) :
    Option LiquidationPath := do
  let flash_loan : FlashLoanParameters :=
    { asset := target.debt_asset, amount := target.debt_to_cover,
      provider := cfg.flash_loan_config.preferred_provider,
      fee_rate := get_flash_loan_fee_rate cfg
        cfg.flash_loan_config.preferred_provider }
  let swap_routes ← calculate_optimal_swap_routes cfg
    target.collateral_asset target.debt_asset target.liquidation_bonus
  some { target := target, flash_loan := flash_loan,
         swap_routes := swap_routes, expected_profit_eth := expected_profit,
         max_gas_price := cfg.max_gas_price,
         use_flashbots := cfg.flashbots_enabled }

/-- `get_user_account_data`. -/
def get_user_account_data (env : ChainEnv) (user : Address) :
    Option AaveUserData :=
  env.userAccountData user

/-- `find_best_collateral_asset`: the first monitored asset. -/
def find_best_collateral_asset (cfg : Config) (user : Address) :
    Option Address :=
  cfg.monitored_assets.head?

/-- `calculate_max_liquidation_amount`: half the user's total debt, capped
by the configured maximum. -/
def calculate_max_liquidation_amount (env : ChainEnv) (cfg : Config)
    (user : Address) (debt_asset : Address) : Option Nat :=
  (env.userAccountData user).map (fun ud =>
    min (ud.total_debt_eth * 5000 / 10000) cfg.max_liquidation_amount)

/-- `calculate_liquidation_profit` (ETH), shared verbatim between
`strategy.rs` and `collector.rs`. -/
def calculate_liquidation_profit (env : ChainEnv)
    (collateral_asset debt_asset : Address) (debt_to_cover : Nat)
    (liquidation_bonus : Nat) : Option ℚ := do
  let collateral_price ← get_asset_price env collateral_asset
  let debt_price ← get_asset_price env debt_asset
  let collateral_amount :=
    debt_to_cover * debt_price / collateral_price * liquidation_bonus / 10000
  let profit_wei : Nat :=
    collateral_amount * collateral_price / 10 ^ 18 -
      debt_to_cover * debt_price / 10 ^ 18
  some ((profit_wei : ℚ) / 10 ^ 18)

/-- `strategy.rs` `create_liquidation_target`. -/
def create_liquidation_target (env : ChainEnv) (cfg : Config) (st : State)
    (user : Address) (debt_asset : Address) : Option LiquidationTarget := do
  if ¬ is_user_liquidatable env user then none
  else do
    let health_factor ← get_user_health_factor env user
    if cfg.health_factor_threshold ≤ health_factor then none
    else do
      let _user_data ← get_user_account_data env user
      let collateral_asset ← find_best_collateral_asset cfg user
      let liquidation_bonus ← get_liquidation_bonus env collateral_asset
      let max_debt_to_cover ← calculate_max_liquidation_amount env cfg user
        debt_asset
      let debt_to_cover := min max_debt_to_cover cfg.max_liquidation_amount
      let gas_cost_estimate := estimate_gas_cost cfg st
      let expected_profit ← calculate_liquidation_profit env collateral_asset
        debt_asset debt_to_cover liquidation_bonus
      some { user := user, collateral_asset := collateral_asset,
             debt_asset := debt_asset, debt_to_cover := debt_to_cover,
             health_factor := health_factor,
             liquidation_bonus := liquidation_bonus,
             expected_profit := expected_profit,
             gas_cost_estimate := f64_to_u64 (gas_cost_estimate * 10 ^ 18),
             receive_a_token := false }

/-- `strategy.rs` `get_users_with_asset_debt`: the user-enumeration stub —
the source returns `None` for every asset. -/
def get_users_with_asset_debt (env : ChainEnv) (asset : Address) :
    Option (List Address) :=
  none

/-- `find_liquidation_opportunities`: iterate monitored assets, collect a
target per enumerated user. -/
def find_liquidation_opportunities (cfg : Config) (st : State)
    (env : ChainEnv) : List LiquidationTarget :=
  cfg.monitored_assets.foldl (fun acc asset =>
    match get_users_with_asset_debt env asset with
    | none => acc
    | some users =>
        acc ++ users.filterMap
          (fun u => create_liquidation_target env cfg st u asset)) []

/-- `find_flash_loan_liquidation_opportunities`: the single most profitable
target above the threshold, as an `ExecuteLiquidation` action. -/
def find_flash_loan_liquidation_opportunities (cfg : Config) (st : State)
    (env : ChainEnv) : Option Action :=
  let targets := find_liquidation_opportunities cfg st env
  if targets.isEmpty then none
  else
    let res := targets.foldl (fun (acc : Option LiquidationPath × ℚ) t =>
      match calculate_profit cfg st env t with
      | none => acc
      | some profit =>
          if acc.2 < profit ∧ cfg.min_profit_threshold < profit then
            match create_liquidation_path cfg env t profit with
            | some path => (some path, profit)
            | none => acc
          else acc) (none, 0)
    res.1.map (fun path => Action.executeLiquidation path res.2)

/-- `find_direct_liquidation_opportunities`: unimplemented in the source. -/
def find_direct_liquidation_opportunities (cfg : Config) (st : State)
    (env : ChainEnv) : Option Action :=
  none

/-- The first-match loop of `find_mev_protected_liquidation_opportunities`. -/
def find_mev_protected_first (cfg : Config) (st : State) (env : ChainEnv) :
    List LiquidationTarget → Option Action
  | [] => none
  | t :: rest =>
      match calculate_profit cfg st env t with
      | none => find_mev_protected_first cfg st env rest
      | some profit =>
          if cfg.min_profit_threshold < profit then
            match create_liquidation_path cfg env t profit with
            | some path =>
                some (Action.executeLiquidation
                  { path with use_flashbots := true } profit)
            | none => find_mev_protected_first cfg st env rest
          else find_mev_protected_first cfg st env rest

/-- `find_mev_protected_liquidation_opportunities`. -/
def find_mev_protected_liquidation_opportunities (cfg : Config) (st : State)
    (env : ChainEnv) : Option Action :=
  if ¬ cfg.mev_protection_enabled then none
  else find_mev_protected_first cfg st env
    (find_liquidation_opportunities cfg st env)

/-- `strategy.rs` `process_block_event`: nothing under an armed circuit
breaker, otherwise one optional action per enabled strategy kind. -/
def process_block_event (cfg : Config) (st : State) (env : ChainEnv) :
    List Action :=
  if st.circuit_breaker_triggered then []
  else
    cfg.enabled_strategies.foldl (fun acc s =>
      match s with
      | .flashLoanLiquidation =>
          acc ++ (find_flash_loan_liquidation_opportunities cfg st env).toList
      | .directLiquidation =>
          acc ++ (find_direct_liquidation_opportunities cfg st env).toList
      | .mevProtectedLiquidation =>
          acc ++ (find_mev_protected_liquidation_opportunities cfg st env).toList)
      []

/-- The event input of `process_event` after the source's framing steps:
empty byte payloads and JSON parse failures route to the block handler;
parsed objects carry their `type` tag and, for claimed liquidation
opportunities, the payload's decoding as a `LiquidationTarget` when it
succeeds; objects without a string `type` produce no action. -/
inductive StrategyEvent where
  | emptyData
  | malformed
  | untyped
  | envelope (tag : String) (target : Option LiquidationTarget)
deriving DecidableEq, Repr

/-- `strategy.rs` `process_event`. -/
def process_event (cfg : Config) (st : State) (env : ChainEnv) :
    StrategyEvent → List Action
  | .emptyData => process_block_event cfg st env
  | .malformed => process_block_event cfg st env
  | .untyped => []
  | .envelope tag target =>
      if tag = "block" then process_block_event cfg st env
      else if tag = "liquidation_opportunity" then
        match target with
        | some t =>
            (match calculate_profit cfg st env t with
             | some profit =>
                 if cfg.min_profit_threshold < profit then
                   match create_liquidation_path cfg env t profit with
                   | some path => [Action.executeLiquidation path profit]
                   | none => []
                 else []
             | none => [])
        | none => []
      else []

/-- The JSON envelopes `collector.rs` serialises onto the event stream,
one constructor per `json!` object (field for field). -/
inductive Envelope where
  | liquidationEvents (events : Nat) (block : Nat)
  | blockEnvelope (block_number : Nat) (timestamp : Int)
  | liquidationOpportunity (opportunities : List LiquidationTarget)
      (count : Nat)
  | healthCheck (monitored_assets : Nat) (timestamp : Int)
  | errorEnvelope (message : String)
deriving DecidableEq, Repr

/-- Chain reads performed by one block tick of the collector. -/
structure TickEnv where
  blockNumber : Except String Nat
  liquidationLogCount : Except String Nat
  timestamp : Int

/-- `collector.rs` `collect_liquidation_events`: a `liquidation_events`
envelope when the 10-block log window is non-empty, otherwise a `block`
envelope; RPC failures propagate as errors (to be shielded by the
stream). -/
def collect_liquidation_events (e : TickEnv) : Except String Envelope := do
  let current_block ← e.blockNumber
  let logs ← e.liquidationLogCount
  if logs ≠ 0 then pure (.liquidationEvents logs current_block)
  else pure (.blockEnvelope current_block e.timestamp)

/-- The per-tick error shield of `get_event_stream`: a failed tick becomes
an `error` envelope instead of propagating. -/
def handle_tick (r : Except String Envelope) : Envelope :=
  match r with
  | .ok data => data
  | .error e => .errorEnvelope e

/-- The block-tick stream of `get_event_stream`: tick `n` applies the error
shield to that tick's collection result; no tick depends on any other. -/
def block_stream (envs : Nat → TickEnv) (n : Nat) : Envelope :=
  handle_tick (collect_liquidation_events (envs n))

/-- `collector.rs` `get_users_with_positions`: the user-index stub — the
source returns `None` for every asset. -/
def get_users_with_positions (env : ChainEnv) (asset : Address) :
    Option (List Address) :=
  none

/-- `collector.rs` `check_liquidation_opportunity`. -/
def check_liquidation_opportunity (env : ChainEnv) (cfg : Config)
    (user : Address) (debt_asset : Address) : Option LiquidationTarget := do
  let health_factor ← get_user_health_factor env user
  if 10 ^ 18 ≤ health_factor then none
  else do
    let user_data ← get_user_account_data env user
    let collateral_asset ← cfg.monitored_assets.head?
    let liquidation_bonus ← get_liquidation_bonus env collateral_asset
    let max_debt_to_cover :=
      min (user_data.total_debt_eth * 5000 / 10000) cfg.max_liquidation_amount
    let expected_profit ← calculate_liquidation_profit env collateral_asset
      debt_asset max_debt_to_cover liquidation_bonus
    some { user := user, collateral_asset := collateral_asset,
           debt_asset := debt_asset, debt_to_cover := max_debt_to_cover,
           health_factor := health_factor,
           liquidation_bonus := liquidation_bonus,
           expected_profit := expected_profit, gas_cost_estimate := 500000,
           receive_a_token := false }

/-- `collector.rs` `monitor_user_health_factors` (the health tick): scan
monitored assets for liquidatable users; a non-empty harvest becomes a
`liquidation_opportunity` envelope, otherwise a `health_check` envelope. -/
def monitor_user_health_factors (cfg : Config) (env : ChainEnv)
    (timestamp : Int) : Envelope :=
  let liquidation_opportunities := cfg.monitored_assets.foldl
    (fun acc asset =>
      match get_users_with_positions env asset with
      | none => acc
      | some users =>
          acc ++ users.filterMap
            (fun u => check_liquidation_opportunity env cfg u asset)) []
  if liquidation_opportunities.isEmpty then
    .healthCheck cfg.monitored_assets.length timestamp
  else
    .liquidationOpportunity liquidation_opportunities
      liquidation_opportunities.length

/-! Executor (`executor.rs`). -/

/-- The abi-encoded calls the executor produces, constructor per selector,
argument for argument (`submitProtectedLiquidation`'s trailing
`flashbotsData` is the empty byte string in the source and is omitted). -/
inductive LiqCall where
  | flashLiquidate (collateralAsset debtAsset user : Address)
      (debtToCover : Nat) (receiveAToken : Bool)
  | submitProtectedLiquidation (collateralAsset debtAsset user : Address)
      (debtToCover : Nat) (receiveAToken : Bool)
deriving DecidableEq, Repr

/-- The fields of the `TransactionRequest` the executor submits. -/
structure TxRequest where
  to_addr : Address
  tx_data : LiqCall
  tx_gas_price : Nat
  gas_limit : Nat
deriving DecidableEq, Repr

/-- `executor.rs` `encode_flash_liquidation_call`. -/
def encode_flash_liquidation_call (path : LiquidationPath) : LiqCall :=
  .flashLiquidate path.target.collateral_asset path.target.debt_asset
    path.target.user path.target.debt_to_cover path.target.receive_a_token

/-- `executor.rs` `encode_protected_liquidation_call`. -/
def encode_protected_liquidation_call (path : LiquidationPath) : LiqCall :=
  .submitProtectedLiquidation path.target.collateral_asset
    path.target.debt_asset path.target.user path.target.debt_to_cover
    path.target.receive_a_token

/-- `executor.rs` `build_standard_transaction`: 500000 gas, priced at the
path's `max_gas_price`. -/
def build_standard_transaction (liquidator_contract : Address)
    (path : LiquidationPath) : TxRequest :=
  { to_addr := liquidator_contract,
    tx_data := encode_flash_liquidation_call path,
    tx_gas_price := path.max_gas_price, gas_limit := 500000 }

/-- `executor.rs` `build_flashbots_transaction`: 600000 gas, priced at the
path's `max_gas_price`. -/
def build_flashbots_transaction (liquidator_contract : Address)
    (path : LiquidationPath) : TxRequest :=
  { to_addr := liquidator_contract,
    tx_data := encode_protected_liquidation_call path,
    tx_gas_price := path.max_gas_price, gas_limit := 600000 }

/-- The transaction-construction prefix of `execute_flash_liquidation`:
abort when the current gas price exceeds the path's ceiling, otherwise
build the standard or flashbots transaction. -/
def execute_flash_liquidation_tx (liquidator_contract : Address)
    (current_gas_price : Nat) (path : LiquidationPath) : Option TxRequest :=
  if path.max_gas_price < current_gas_price then none
  else if path.use_flashbots then
    some (build_flashbots_transaction liquidator_contract path)
  else
    some (build_standard_transaction liquidator_contract path)

end AV

/-! ### C9: the health tick under the stubbed user enumeration -/

theorem monitor_fold_nil (env : AV.ChainEnv) (cfg : AV.Config) :
    ∀ (l : List Address) (acc : List AV.LiquidationTarget),
      l.foldl (fun acc asset =>
        match AV.get_users_with_positions env asset with
        | none => acc
        | some users =>
            acc ++ users.filterMap
              (fun u => AV.check_liquidation_opportunity env cfg u asset)) acc
        = acc
  | [], acc => rfl
  | a :: l, acc => by
      rw [List.foldl_cons]
      exact monitor_fold_nil env cfg l acc

/-- C9: for every configuration and environment, a completed health tick
emits the `health_check` envelope and never a `liquidation_opportunity`
envelope, because `get_users_with_positions` returns no users for any
monitored asset. -/
theorem C9_health_tick_never_opportunity (cfg : AV.Config)
    (env : AV.ChainEnv) (ts : Int) :
    AV.monitor_user_health_factors cfg env ts =
      .healthCheck cfg.monitored_assets.length ts ∧
    ∀ (opps : List AV.LiquidationTarget) (c : Nat),
      AV.monitor_user_health_factors cfg env ts ≠
        .liquidationOpportunity opps c := by
  have hfold := monitor_fold_nil env cfg cfg.monitored_assets []
  have h1 : AV.monitor_user_health_factors cfg env ts =
      .healthCheck cfg.monitored_assets.length ts := by
    rw [AV.monitor_user_health_factors]
    rw [hfold]
    rfl
  refine ⟨h1, ?_⟩
  intro opps c hcontra
  rw [h1] at hcontra
  exact AV.Envelope.noConfusion hcontra

/-! ### C8: failed block ticks degrade to error envelopes -/

/-- C8: a block tick whose chain reads fail yields the
`{type: error, message}` envelope rather than propagating the error, and
every tick of the stream — in particular every later one — is the shielded
image of its own tick's collection only, so the stream keeps producing
events after a failure. -/
theorem C8_error_tick_shielded (envs : Nat → AV.TickEnv) (n : Nat)
    (msg : String)
    (h : AV.collect_liquidation_events (envs n) = .error msg) :
    AV.block_stream envs n = .errorEnvelope msg ∧
    ∀ m, AV.block_stream envs m =
      AV.handle_tick (AV.collect_liquidation_events (envs m)) := by
  constructor
  · rw [AV.block_stream, h]
    rfl
  · intro m
    rfl

/-- A tick environment whose block-number read fails. -/
def failingTick : AV.TickEnv :=
  { blockNumber := .error "rpc down", liquidationLogCount := .ok 0,
    timestamp := 0 }

/-- C8 witness: the failing tick produces the error envelope. -/
theorem C8_witness :
    AV.block_stream (fun _ => failingTick) 0 =
      .errorEnvelope "rpc down" :=
  (C8_error_tick_shielded (fun _ => failingTick) 0 "rpc down" rfl).1

/-! ### C6: bounds on `debt_to_cover` in constructed liquidation targets -/

theorem half_via_bps (x : Nat) : x * 5000 / 10000 = x / 2 := by
  rw [show (10000 : Nat) = 5000 * 2 from rfl, Nat.mul_comm x 5000,
    Nat.mul_div_mul_left x 2 (by norm_num)]

/-- C6: every `LiquidationTarget` constructed by the strategy
(`create_liquidation_target`) or the collector
(`check_liquidation_opportunity`) satisfies
`debt_to_cover ≤ 0.5 · totalDebt` (expressed without division as
`2 · debt_to_cover ≤ totalDebt`) and
`debt_to_cover ≤ max_liquidation_amount`. -/
theorem C6_debt_to_cover_bounds :
    (∀ (env : AV.ChainEnv) (cfg : AV.Config) (st : AV.State)
       (user asset : Address) (t : AV.LiquidationTarget)
       (ud : AV.AaveUserData), env.userAccountData user = some ud →
       AV.create_liquidation_target env cfg st user asset = some t →
       2 * t.debt_to_cover ≤ ud.total_debt_eth ∧
       t.debt_to_cover ≤ cfg.max_liquidation_amount) ∧
    (∀ (env : AV.ChainEnv) (cfg : AV.Config) (user asset : Address)
       (t : AV.LiquidationTarget) (ud : AV.AaveUserData),
       env.userAccountData user = some ud →
       AV.check_liquidation_opportunity env cfg user asset = some t →
       2 * t.debt_to_cover ≤ ud.total_debt_eth ∧
       t.debt_to_cover ≤ cfg.max_liquidation_amount) := by
  constructor
  · intro env cfg st user asset t ud hud h
    rw [AV.create_liquidation_target] at h
    split at h
    · exact absurd h (by simp)
    · cases hhf : AV.get_user_health_factor env user with
      | none => simp [hhf, Option.bind, bind] at h
      | some hf =>
        simp only [hhf, Option.bind, bind] at h
        split at h
        · exact absurd h (by simp)
        · cases hudv : AV.get_user_account_data env user with
          | none => simp [hudv, Option.bind, bind] at h
          | some udv =>
            simp only [hudv, Option.bind, bind] at h
            cases hcol : AV.find_best_collateral_asset cfg user with
            | none => simp [hcol, Option.bind, bind] at h
            | some col =>
              simp only [hcol, Option.bind, bind] at h
              cases hbonus : AV.get_liquidation_bonus env col with
              | none => simp [hbonus, Option.bind, bind] at h
              | some bonus =>
                simp only [hbonus, Option.bind, bind] at h
                cases hmaxd : AV.calculate_max_liquidation_amount env cfg
                    user asset with
                | none => simp [hmaxd, Option.bind, bind] at h
                | some maxd =>
                  simp only [hmaxd, Option.bind, bind] at h
                  cases hep : AV.calculate_liquidation_profit env col asset
                      (min maxd cfg.max_liquidation_amount) bonus with
                  | none => simp [hep, Option.bind, bind] at h
                  | some ep =>
                    simp only [hep, Option.bind, bind, Option.some_inj] at h
                    subst h
                    rw [AV.calculate_max_liquidation_amount, hud] at hmaxd
                    simp only [Option.map_some', Option.some_inj] at hmaxd
                    have hh := half_via_bps ud.total_debt_eth
                    refine ⟨?_, ?_⟩
                    · show 2 * min maxd cfg.max_liquidation_amount ≤
                        ud.total_debt_eth
                      omega
                    · show min maxd cfg.max_liquidation_amount ≤
                        cfg.max_liquidation_amount
                      omega
  · intro env cfg user asset t ud hud h
    rw [AV.check_liquidation_opportunity] at h
    cases hhf : AV.get_user_health_factor env user with
    | none => simp [hhf, Option.bind, bind] at h
    | some hf =>
      simp only [hhf, Option.bind, bind] at h
      split at h
      · exact absurd h (by simp)
      · cases hudv : AV.get_user_account_data env user with
        | none => simp [hudv, Option.bind, bind] at h
        | some udv =>
          simp only [hudv, Option.bind, bind] at h
          cases hcol : cfg.monitored_assets.head? with
          | none => simp [hcol, Option.bind, bind] at h
          | some col =>
            simp only [hcol, Option.bind, bind] at h
            cases hbonus : AV.get_liquidation_bonus env col with
            | none => simp [hbonus, Option.bind, bind] at h
            | some bonus =>
              simp only [hbonus, Option.bind, bind] at h
              cases hep : AV.calculate_liquidation_profit env col asset
                  (min (udv.total_debt_eth * 5000 / 10000)
                    cfg.max_liquidation_amount) bonus with
              | none => simp [hep, Option.bind, bind] at h
              | some ep =>
                simp only [hep, Option.bind, bind, Option.some_inj] at h
                subst h
                rw [AV.get_user_account_data, hud] at hudv
                simp only [Option.some_inj] at hudv
                subst hudv
                have hh := half_via_bps ud.total_debt_eth
                refine ⟨?_, ?_⟩
                · show 2 * min (ud.total_debt_eth * 5000 / 10000)
                    cfg.max_liquidation_amount ≤ ud.total_debt_eth
                  omega
                · show min (ud.total_debt_eth * 5000 / 10000)
                    cfg.max_liquidation_amount ≤ cfg.max_liquidation_amount
                  omega

/-- Environment for the C6 witness: one liquidatable user. -/
def avBoundsEnv : AV.ChainEnv :=
  { userAccountData := fun a => if a = 7 then
      some { total_collateral_eth := 3 * 10 ^ 18,
             total_debt_eth := 2 * 10 ^ 18, available_borrows_eth := 0,
             current_liquidation_threshold := 8000, ltv := 7500,
             health_factor := 5 * 10 ^ 17 } else none,
    configurationWord := fun a => if a = 5 then some (10500 * 65536)
      else none,
    assetPrice := fun a => if a = 5 ∨ a = 6 then some (10 ^ 18) else none }

/-- Configuration for the C1/C6 demonstrations. -/
def avDemoCfg : AV.Config :=
  { enabled_strategies := [.flashLoanLiquidation],
    liquidator_contract := 55, aave_pool := 3, aave_oracle := 4,
    min_profit_threshold := 0, max_gas_price := 100,
    gas_price_multiplier := 1, max_slippage := 0,
    health_factor_threshold := 10 ^ 18,
    max_liquidation_amount := 10 ^ 19, flashbots_enabled := false,
    mev_protection_enabled := false, circuit_breaker_enabled := true,
    monitored_assets := [5], supported_dexes := [.uniswapV2],
    flash_loan_config :=
      { preferred_provider := .aaveV3, max_flash_loan_amount := 0,
        fee_multiplier := 0, providers := [] },
    dex_configs := [(.uniswapV2, { router_address := 99 })] }

/-- Strategy state with the circuit breaker armed and zero gas price. -/
def avDemoState : AV.State :=
  { gas_price := 0, circuit_breaker_triggered := true,
    last_update_block := 0 }

/-- The target `create_liquidation_target` builds in `avBoundsEnv`. -/
def avBoundsTarget : AV.LiquidationTarget :=
  { user := 7, collateral_asset := 5, debt_asset := 6,
    debt_to_cover := 10 ^ 18, health_factor := 5 * 10 ^ 17,
    liquidation_bonus := 10500, expected_profit := mkRat 1 20,
    gas_cost_estimate := 0, receive_a_token := false }

/-- C6 witness: the bounds at the concrete constructed target. -/
theorem C6_witness :
    2 * avBoundsTarget.debt_to_cover ≤ 2 * 10 ^ 18 ∧
    avBoundsTarget.debt_to_cover ≤ avDemoCfg.max_liquidation_amount :=
  C6_debt_to_cover_bounds.1 avBoundsEnv avDemoCfg avDemoState 7 6
    avBoundsTarget
    { total_collateral_eth := 3 * 10 ^ 18, total_debt_eth := 2 * 10 ^ 18,
      available_borrows_eth := 0, current_liquidation_threshold := 8000,
      ltv := 7500, health_factor := 5 * 10 ^ 17 }
    (by decide) (by with_unfolding_all rfl)

/-! ### C7: the transactions the executor builds -/

/-- C7 (amended): every transaction the executor builds for an
`ExecuteLiquidation` goes to the configured liquidator contract, carries
the abi-encoded `flashLiquidate` call (or `submitProtectedLiquidation` on
the flashbots path), budgets 500000 gas for a standard and 600000 for a
protected liquidation — but its gas price is the path's `max_gas_price`
verbatim (no `currentGasPrice · priorityMultiplier` is computed; the
current gas price only gates submission: it must not exceed the
ceiling). -/
theorem C7_transaction_shape (liq : Address) (gp : Nat)
    (path : AV.LiquidationPath) (tx : AV.TxRequest)
    (h : AV.execute_flash_liquidation_tx liq gp path = some tx) :
    tx.to_addr = liq ∧
    tx.gas_limit = (if path.use_flashbots then 600000 else 500000) ∧
    tx.tx_gas_price = path.max_gas_price ∧
    tx.tx_data = (if path.use_flashbots then
      AV.encode_protected_liquidation_call path
    else AV.encode_flash_liquidation_call path) ∧
    gp ≤ path.max_gas_price := by
  rw [AV.execute_flash_liquidation_tx] at h
  split at h
  · exact absurd h (by simp)
  · rename_i hgp
    split at h
    · rename_i hfb
      simp only [Option.some_inj] at h
      subst h
      simp only [hfb, if_true]
      exact ⟨rfl, rfl, rfl, rfl, by omega⟩
    · rename_i hfb
      simp only [Option.some_inj] at h
      subst h
      simp only [hfb, if_false]
      exact ⟨rfl, rfl, rfl, rfl, by omega⟩

/-- A concrete liquidation path with `max_gas_price = 100`. -/
def c7path : AV.LiquidationPath :=
  { target := { user := 7, collateral_asset := 5, debt_asset := 6,
                debt_to_cover := 10 ^ 18, health_factor := 5 * 10 ^ 17,
                liquidation_bonus := 10500, expected_profit := 0,
                gas_cost_estimate := 0, receive_a_token := false },
    flash_loan := { asset := 6, amount := 10 ^ 18, provider := .aaveV3,
                    fee_rate := 9 },
    swap_routes := [], expected_profit_eth := 0, max_gas_price := 100,
    use_flashbots := false }

/-- C7 counterexample: at current gas price `0` the executor builds a
transaction priced at the path's `max_gas_price = 100`, while
`min(currentGasPrice · priorityMultiplier, maxGasPrice)` is
`min(0, 100) = 0` for every multiplier (since `0 · m = 0`), so the claimed
gas-price formula fails. -/
theorem C7_counterexample :
    (AV.execute_flash_liquidation_tx 55 0 c7path).map
      AV.TxRequest.tx_gas_price = some 100 ∧
    min 0 100 ≠ 100 := by
  constructor
  · rfl
  · decide

/-- C7 witness: the amended shape at the concrete path with current gas
price 50. -/
theorem C7_witness :
    (AV.build_standard_transaction 55 c7path).to_addr = 55 ∧
    (AV.build_standard_transaction 55 c7path).tx_gas_price =
      c7path.max_gas_price :=
  have h := C7_transaction_shape 55 50 c7path
    (AV.build_standard_transaction 55 c7path) rfl
  ⟨h.1, h.2.2.1⟩

/-! ### C1: the circuit breaker and `process_event` -/

/-- C1 (amended): with the circuit-breaker flag set, `process_event` emits
no action for block events, empty payloads, malformed payloads, untyped
payloads and unknown envelope types — but an incoming
`liquidation_opportunity` envelope that decodes to a target bypasses the
circuit-breaker check entirely and may still emit `ExecuteLiquidation`. -/
theorem C1_circuit_breaker_scope (cfg : AV.Config) (st : AV.State)
    (env : AV.ChainEnv) (ev : AV.StrategyEvent)
    (hcb : st.circuit_breaker_triggered = true)
    (hev : ∀ t, ev ≠ .envelope "liquidation_opportunity" (some t)) :
    AV.process_event cfg st env ev = [] := by
  have hblock : AV.process_block_event cfg st env = [] := by
    rw [AV.process_block_event, if_pos hcb]
  cases ev with
  | emptyData => exact hblock
  | malformed => exact hblock
  | untyped => rfl
  | envelope tag target =>
      simp only [AV.process_event]
      by_cases htag : tag = "block"
      · rw [if_pos htag]
        exact hblock
      · rw [if_neg htag]
        by_cases htag2 : tag = "liquidation_opportunity"
        · rw [if_pos htag2]
          cases target with
          | none => rfl
          | some t =>
              subst htag2
              exact absurd rfl (hev t)
        · rw [if_neg htag2]

/-- Environment for the C1 counterexample: bonus and prices available for
the claimed target's assets (user enumeration irrelevant here). -/
def avDemoEnv : AV.ChainEnv :=
  { userAccountData := fun _ => none,
    configurationWord := fun a => if a = 5 then some (10500 * 65536)
      else none,
    assetPrice := fun a => if a = 5 ∨ a = 6 then some (10 ^ 18) else none }

/-- A liquidation target as delivered on the wire. -/
def avDemoTarget : AV.LiquidationTarget :=
  { user := 7, collateral_asset := 5, debt_asset := 6,
    debt_to_cover := 2 * 10 ^ 18, health_factor := 0,
    liquidation_bonus := 10500, expected_profit := 0,
    gas_cost_estimate := 0, receive_a_token := false }

/-- Is the action an `ExecuteLiquidation`? -/
def is_execute_liquidation : AV.Action → Bool
  | .executeLiquidation _ _ => true
  | _ => false

/-- C1 counterexample: with the circuit-breaker flag set, a
`liquidation_opportunity` envelope still makes `process_event` emit an
`ExecuteLiquidation` action — the branch never consults the flag. -/
theorem C1_counterexample :
    avDemoState.circuit_breaker_triggered = true ∧
    (AV.process_event avDemoCfg avDemoState avDemoEnv
      (.envelope "liquidation_opportunity" (some avDemoTarget))).any
      is_execute_liquidation = true := by
  refine ⟨rfl, ?_⟩
  with_unfolding_all decide

/-- C1 witness: with the breaker armed, an empty payload (block-event
route) yields no action. -/
theorem C1_witness :
    AV.process_event avDemoCfg avDemoState avDemoEnv .emptyData = [] :=
  C1_circuit_breaker_scope avDemoCfg avDemoState avDemoEnv .emptyData rfl
    (fun t h => AV.StrategyEvent.noConfusion h)

end ArtemisVerification
